import Mathlib

/-!
# Tick-driven task scheduler (`TaskScheduler.c`)

A shallow embedding of the three entry points `TaskScheduler_Init`,
`TaskScheduler_AddTask` and `TaskScheduler_Update` together with the static
state they act on (`task_list`, `tick_per_second`).

Machine integers are natural numbers; the only operation of the source that can
leave the range of its type is the pre-decrement `--counter` on a `uint32_t`,
which is taken modulo `2 ^ 32`.  A function pointer is its address, `0` being
the null pointer.  Invoking a callback is recorded as a `Call` event; callbacks
are taken not to touch the scheduler state.
-/

namespace TaskScheduler

/-- Capacity of the task table (`#define TASKSCHEDULER_MAX_TASKS 10`). -/
abbrev TASKSCHEDULER_MAX_TASKS : Nat := 10

/-- Number of values of a `uint32_t`. -/
abbrev UINT32_MOD : Nat := 2 ^ 32

/-- One entry of the task table (`TaskScheduler_Task`). -/
structure TaskScheduler_Task where
  interval_ticks : Nat
  counter : Nat
  callback : Nat
  active : Nat
  priority : Nat
deriving DecidableEq, Repr, Inhabited

/-- The array `task_list[TASKSCHEDULER_MAX_TASKS]`. -/
abbrev TaskList : Type := Fin TASKSCHEDULER_MAX_TASKS → TaskScheduler_Task

/-- Read `task_list[i]`; an index outside the array reads a default entry. -/
def TaskList.rd (tl : TaskList) (i : Nat) : TaskScheduler_Task :=
  if h : i < TASKSCHEDULER_MAX_TASKS then tl ⟨i, h⟩ else default

/-- Write `task_list[i] = t`; an index outside the array writes nothing. -/
def TaskList.wr (tl : TaskList) (i : Nat) (t : TaskScheduler_Task) : TaskList :=
  if h : i < TASKSCHEDULER_MAX_TASKS then Function.update tl ⟨i, h⟩ t else tl

/-- The static state of the module: `task_list` and `tick_per_second`. -/
structure Scheduler where
  task_list : TaskList
  tick_per_second : Nat

/-- The event `task_list[slot].callback()`: the slot dispatched and the
function pointer that was called. -/
structure Call where
  slot : Nat
  callback : Nat
deriving DecidableEq, Repr

/-- Body of the loop of `TaskScheduler_Init`: `task_list[i].active = 0`. -/
def initStep (tl : TaskList) (i : Nat) : TaskList :=
  tl.wr i { tl.rd i with active := 0 }

/-- The function `TaskScheduler_Init(tick_frequency_hz)`. -/
def TaskScheduler_Init (s : Scheduler) (tick_frequency_hz : Nat) : Scheduler :=
  { task_list := (List.range TASKSCHEDULER_MAX_TASKS).foldl initStep s.task_list
    tick_per_second := tick_frequency_hz }

/-- The slot search of `TaskScheduler_AddTask`, started at index `i` with `n`
iterations left: the first inactive slot is filled and its index returned;
when the loop runs out the function returns `-1`. -/
def addTaskLoop (s : Scheduler) (interval_ticks callback priority : Nat) :
    Nat → Nat → Scheduler × Int
  | _, 0 => (s, -1)
  | i, n + 1 =>
    if (s.task_list.rd i).active = 0 then
      ({ task_list := s.task_list.wr i
            { interval_ticks := interval_ticks, counter := interval_ticks,
              callback := callback, priority := priority, active := 1 },
         tick_per_second := s.tick_per_second }, (i : Int))
    else addTaskLoop s interval_ticks callback priority (i + 1) n

/-- The interval computed by `TaskScheduler_AddTask`:
`tick_per_second / frequency_hz`, replaced by `1` when it is `0`. -/
def intervalTicks (tick_per_second frequency_hz : Nat) : Nat :=
  let interval_ticks := tick_per_second / frequency_hz
  if interval_ticks = 0 then 1 else interval_ticks

/-- The function `TaskScheduler_AddTask(frequency_hz, callback, priority)`: the
new state and the returned `int`. -/
def TaskScheduler_AddTask (s : Scheduler) (frequency_hz callback priority : Nat) :
    Scheduler × Int :=
  if frequency_hz = 0 ∨ frequency_hz > s.tick_per_second ∨ callback = 0 then (s, -1)
  else
    addTaskLoop s (intervalTicks s.tick_per_second frequency_hz) callback priority
      0 TASKSCHEDULER_MAX_TASKS

/-- The pre-decrement `--counter` on a `uint32_t`. -/
def decr32 (c : Nat) : Nat := (c + (UINT32_MOD - 1)) % UINT32_MOD

/-- Body of the first loop of `TaskScheduler_Update`: an active slot has its
counter decremented and is appended to `ready_task_indices` when the counter
reaches `0`. -/
def readyStep (st : TaskList × List Nat) (i : Nat) : TaskList × List Nat :=
  if (st.1.rd i).active ≠ 0 then
    let c := decr32 (st.1.rd i).counter
    let tl := st.1.wr i { st.1.rd i with counter := c }
    if c = 0 then (tl, st.2 ++ [i]) else (tl, st.2)
  else st

/-- First loop of `TaskScheduler_Update`; the list is
`ready_task_indices[0 .. ready_count)`. -/
def readyPass (tl : TaskList) : TaskList × List Nat :=
  (List.range TASKSCHEDULER_MAX_TASKS).foldl readyStep (tl, [])

/-- Exchange of `ready_task_indices[i]` and `ready_task_indices[j]` through
`temp`. -/
def swapIdx (a : List Nat) (i j : Nat) : List Nat :=
  let temp := a.getD i 0
  (a.set i (a.getD j 0)).set j temp

/-- Body of the inner sorting loop: swap when the entry at `j` has a strictly
smaller priority than the entry at `i`. -/
def sortStep (tl : TaskList) (i : Nat) (a : List Nat) (j : Nat) : List Nat :=
  if (tl.rd (a.getD j 0)).priority < (tl.rd (a.getD i 0)).priority then swapIdx a i j else a

/-- Inner sorting loop `for (j = i + 1; j < ready_count; j++)`. -/
def sortInner (tl : TaskList) (a : List Nat) (i : Nat) : List Nat :=
  (List.range' (i + 1) (a.length - (i + 1))).foldl (sortStep tl i) a

/-- Outer sorting loop `for (i = 0; i < ready_count - 1; i++)`. -/
def sortReady (tl : TaskList) (a : List Nat) : List Nat :=
  (List.range (a.length - 1)).foldl (sortInner tl) a

/-- Body of the dispatch loop: call the callback of slot `idx`, then reload its
counter from `interval_ticks`. -/
def dispatchStep (st : TaskList × List Call) (idx : Nat) : TaskList × List Call :=
  (st.1.wr idx { st.1.rd idx with counter := (st.1.rd idx).interval_ticks },
   st.2 ++ [{ slot := idx, callback := (st.1.rd idx).callback }])

/-- Dispatch loop of `TaskScheduler_Update` over the sorted ready indices. -/
def dispatchPass (tl : TaskList) (ready : List Nat) : TaskList × List Call :=
  ready.foldl dispatchStep (tl, [])

/-- The function `TaskScheduler_Update()`: the new state and the callbacks
called, in order. -/
def TaskScheduler_Update (s : Scheduler) : Scheduler × List Call :=
  let r := readyPass s.task_list
  let sorted := sortReady r.1 r.2
  let d := dispatchPass r.1 sorted
  ({ s with task_list := d.1 }, d.2)

/-- Slots dispatched by a sequence of calls, in order. -/
def slotsOf (calls : List Call) : List Nat := calls.map Call.slot

/-- The state after `n` consecutive calls of `TaskScheduler_Update`. -/
def updateN : Nat → Scheduler → Scheduler
  | 0, s => s
  | n + 1, s => (TaskScheduler_Update (updateN n s)).1

/-- The callbacks called by the `n`-th of a run of consecutive calls of
`TaskScheduler_Update` started in `s` (`n = 1` is the first call). -/
def nthUpdateCalls (s : Scheduler) (n : Nat) : List Call :=
  (TaskScheduler_Update (updateN (n - 1) s)).2

/-- A call made by client code after initialisation. -/
inductive Op where
  | addTask (frequency_hz callback priority : Nat)
  | update
deriving DecidableEq, Repr

/-- What a call lets its caller observe: the value returned by
`TaskScheduler_AddTask`, or the callbacks run by `TaskScheduler_Update`. -/
inductive Out where
  | ret (r : Int)
  | calls (l : List Call)
deriving DecidableEq, Repr

/-- One call: the new state and what was observed. -/
def stepOp (s : Scheduler) : Op → Scheduler × Out
  | Op.addTask f cb p => ((TaskScheduler_AddTask s f cb p).1, Out.ret (TaskScheduler_AddTask s f cb p).2)
  | Op.update => ((TaskScheduler_Update s).1, Out.calls (TaskScheduler_Update s).2)

/-- A sequence of calls: the final state and the observations, in order. -/
def runOps : Scheduler → List Op → Scheduler × List Out
  | s, [] => (s, [])
  | s, op :: ops => ((runOps (stepOp s op).1 ops).1, (stepOp s op).2 :: (runOps (stepOp s op).1 ops).2)

/-- Arguments accepted by the validation of `TaskScheduler_AddTask` at tick
rate `T`; an `update` has nothing to validate. -/
def Op.validFor (T : Nat) : Op → Prop
  | Op.addTask f cb _ => 0 < f ∧ f ≤ T ∧ cb ≠ 0
  | Op.update => True

/-- Number of `TaskScheduler_AddTask` calls in a sequence. -/
def countAdd : List Op → Nat
  | [] => 0
  | Op.addTask _ _ _ :: ops => countAdd ops + 1
  | Op.update :: ops => countAdd ops

/-- The validation of `TaskScheduler_AddTask` rejects the arguments. -/
def rejected (s : Scheduler) (f cb : Nat) : Prop :=
  f = 0 ∨ f > s.tick_per_second ∨ cb = 0

instance (s : Scheduler) (f cb : Nat) : Decidable (rejected s f cb) := by
  unfold rejected
  infer_instance

/-- Priority of the slot whose index is stored at position `m` of the ready
array. -/
def keyAt (tl : TaskList) (a : List Nat) (m : Nat) : Nat := (tl.rd (a.getD m 0)).priority

/-- Slot `i` is active and its counter reaches `0` when decremented: the test
under which the first loop of `TaskScheduler_Update` records `i`. -/
def isReady (tl : TaskList) (i : Nat) : Bool :=
  decide ((tl.rd i).active ≠ 0) && decide (decr32 (tl.rd i).counter = 0)

/-- The ready slots in table order. -/
def readySet (tl : TaskList) : List Nat :=
  (List.range TASKSCHEDULER_MAX_TASKS).filter (isReady tl)

/-- An entry after the first loop of `TaskScheduler_Update` has visited it. -/
def ticked (t : TaskScheduler_Task) : TaskScheduler_Task :=
  if t.active ≠ 0 then { t with counter := decr32 t.counter } else t

/-- An entry after its dispatch: the counter is reloaded. -/
def reloaded (t : TaskScheduler_Task) : TaskScheduler_Task :=
  { t with counter := t.interval_ticks }

/-- A run of `TaskScheduler_AddTask` calls, given as
`(frequency_hz, callback, priority)` triples; return values are dropped. -/
def registerAll (s : Scheduler) (regs : List (Nat × Nat × Nat)) : Scheduler :=
  regs.foldl (fun st r => (TaskScheduler_AddTask st r.1 r.2.1 r.2.2).1) s

/-- In one call of `TaskScheduler_Update`, slot `i` is dispatched before slot
`j`. -/
def dispatchedBefore (calls : List Call) (i j : Nat) : Prop :=
  i ∈ slotsOf calls ∧ j ∈ slotsOf calls ∧
    (slotsOf calls).indexOf i < (slotsOf calls).indexOf j

instance (calls : List Call) (i j : Nat) : Decidable (dispatchedBefore calls i j) := by
  unfold dispatchedBefore
  infer_instance

/-- A task table with every field of every entry zero. -/
def zeroState : Scheduler :=
  { task_list := fun _ => { interval_ticks := 0, counter := 0, callback := 0,
                            active := 0, priority := 0 }
    tick_per_second := 0 }

instance (T : Nat) (op : Op) : Decidable (op.validFor T) := by
  cases op <;> unfold Op.validFor <;> infer_instance

/-- The values returned by the `TaskScheduler_AddTask` calls of a run, in
order. -/
def retsOf : List Out → List Int
  | [] => []
  | Out.ret r :: os => r :: retsOf os
  | Out.calls _ :: os => retsOf os

/-- The active slots are exactly the first `n` of the table. -/
def activeUpTo (s : Scheduler) (n : Nat) : Prop :=
  ∀ k, k < TASKSCHEDULER_MAX_TASKS → ((s.task_list.rd k).active ≠ 0 ↔ k < n)

/-- Every active slot has `1 ≤ counter ≤ interval_ticks`, with
`interval_ticks` a `uint32_t` value. -/
def countersInRange (s : Scheduler) : Prop :=
  ∀ k, k < TASKSCHEDULER_MAX_TASKS → (s.task_list.rd k).active ≠ 0 →
    1 ≤ (s.task_list.rd k).counter ∧
    (s.task_list.rd k).counter ≤ (s.task_list.rd k).interval_ticks ∧
    (s.task_list.rd k).interval_ticks < UINT32_MOD

/-- The values returned by the successful `TaskScheduler_AddTask` calls of a
run (those other than `-1`), in order. -/
def successesOf (outs : List Out) : List Int :=
  (retsOf outs).filter (fun r => decide (r ≠ -1))

/-- Two states that agree on everything later calls can depend on: the tick
rate, the `active` flag of every slot, and the whole entry of every active
slot. -/
def sameLive (a b : Scheduler) : Prop :=
  a.tick_per_second = b.tick_per_second ∧
  ∀ k, k < TASKSCHEDULER_MAX_TASKS →
    (a.task_list.rd k).active = (b.task_list.rd k).active ∧
    ((a.task_list.rd k).active ≠ 0 → a.task_list.rd k = b.task_list.rd k)

/-- Body of the first loop of `TaskScheduler_Update` with every array access
checked: the result is `none` when `i` is not an index of `task_list`, or when
the write `ready_task_indices[ready_count++] = i` falls outside the
`TASKSCHEDULER_MAX_TASKS` entries of `ready_task_indices`. -/
def readyStepChecked (st : TaskList × List Nat) (i : Nat) : Option (TaskList × List Nat) :=
  if i < TASKSCHEDULER_MAX_TASKS then
    if (st.1.rd i).active ≠ 0 then
      let c := decr32 (st.1.rd i).counter
      let tl := st.1.wr i { st.1.rd i with counter := c }
      if c = 0 then
        if st.2.length < TASKSCHEDULER_MAX_TASKS then some (tl, st.2 ++ [i]) else none
      else some (tl, st.2)
    else some st
  else none

/-- First loop of `TaskScheduler_Update`, checked. -/
def readyPassChecked (tl : TaskList) : Option (TaskList × List Nat) :=
  (List.range TASKSCHEDULER_MAX_TASKS).foldlM readyStepChecked (tl, [])

/-- Body of the inner sorting loop, checked: positions `i` and `j` must lie in
the filled part of `ready_task_indices`, which must fit the array, and the
slot indices stored there must be indices of `task_list`. -/
def sortStepChecked (tl : TaskList) (i : Nat) (a : List Nat) (j : Nat) : Option (List Nat) :=
  if i < a.length ∧ j < a.length ∧ a.length ≤ TASKSCHEDULER_MAX_TASKS ∧
      a.getD j 0 < TASKSCHEDULER_MAX_TASKS ∧ a.getD i 0 < TASKSCHEDULER_MAX_TASKS then
    some (sortStep tl i a j)
  else none

/-- Inner sorting loop, checked. -/
def sortInnerChecked (tl : TaskList) (a : List Nat) (i : Nat) : Option (List Nat) :=
  (List.range' (i + 1) (a.length - (i + 1))).foldlM (sortStepChecked tl i) a

/-- Outer sorting loop, checked. -/
def sortReadyChecked (tl : TaskList) (a : List Nat) : Option (List Nat) :=
  (List.range (a.length - 1)).foldlM (sortInnerChecked tl) a

/-- Body of the dispatch loop, checked: `idx` must be an index of
`task_list`. -/
def dispatchStepChecked (st : TaskList × List Call) (idx : Nat) :
    Option (TaskList × List Call) :=
  if idx < TASKSCHEDULER_MAX_TASKS then some (dispatchStep st idx) else none

/-- Dispatch loop, checked: the positions read are those of the filled part of
`ready_task_indices`, which must fit the array. -/
def dispatchPassChecked (tl : TaskList) (ready : List Nat) : Option (TaskList × List Call) :=
  if ready.length ≤ TASKSCHEDULER_MAX_TASKS then ready.foldlM dispatchStepChecked (tl, [])
  else none

/-- The function `TaskScheduler_Update()` with every access to `task_list`
and `ready_task_indices` checked; `none` reports an access out of bounds. -/
def TaskScheduler_Update_checked (s : Scheduler) : Option (Scheduler × List Call) :=
  match readyPassChecked s.task_list with
  | none => none
  | some r =>
    match sortReadyChecked r.1 r.2 with
    | none => none
    | some sorted =>
      match dispatchPassChecked r.1 sorted with
      | none => none
      | some d => some ({ s with task_list := d.1 }, d.2)

/-- The entry written by a successful `TaskScheduler_AddTask`. -/
def newTask (interval_ticks callback priority : Nat) : TaskScheduler_Task :=
  { interval_ticks := interval_ticks, counter := interval_ticks,
    callback := callback, priority := priority, active := 1 }

end TaskScheduler

namespace TaskScheduler

/-! ## Reading and writing the task table -/

theorem rd_of_lt (tl : TaskList) {i : Nat} (h : i < TASKSCHEDULER_MAX_TASKS) :
    tl.rd i = tl ⟨i, h⟩ := by
  simp [TaskList.rd, h]

theorem rd_val (tl : TaskList) (k : Fin TASKSCHEDULER_MAX_TASKS) : tl.rd k.val = tl k := by
  simp [TaskList.rd, k.isLt]

theorem rd_wr (tl : TaskList) (i j : Nat) (t : TaskScheduler_Task) :
    (tl.wr i t).rd j = if j = i ∧ i < TASKSCHEDULER_MAX_TASKS then t else tl.rd j := by
  unfold TaskList.wr TaskList.rd
  by_cases hi : i < TASKSCHEDULER_MAX_TASKS
  · by_cases hj : j < TASKSCHEDULER_MAX_TASKS
    · by_cases hji : j = i
      · subst hji
        simp [hi]
      · have hne : (⟨j, hj⟩ : Fin TASKSCHEDULER_MAX_TASKS) ≠ ⟨i, hi⟩ := by
          intro h
          exact hji (Fin.mk.inj h)
        simp [hi, hj, hji, Function.update_noteq hne]
    · have hji : j ≠ i := by
        intro h
        exact hj (h ▸ hi)
      simp [hi, hj, hji]
  · simp [hi]

theorem rd_wr_same (tl : TaskList) {i : Nat} (h : i < TASKSCHEDULER_MAX_TASKS)
    (t : TaskScheduler_Task) : (tl.wr i t).rd i = t := by
  simp [rd_wr, h]

theorem rd_wr_ne (tl : TaskList) {i j : Nat} (h : j ≠ i) (t : TaskScheduler_Task) :
    (tl.wr i t).rd j = tl.rd j := by
  simp [rd_wr, h]

theorem scheduler_ext {a b : Scheduler} (h1 : a.task_list = b.task_list)
    (h2 : a.tick_per_second = b.tick_per_second) : a = b := by
  cases a
  cases b
  simp only at h1 h2
  rw [h1, h2]

theorem taskList_ext {tl tl' : TaskList}
    (h : ∀ i, i < TASKSCHEDULER_MAX_TASKS → tl.rd i = tl'.rd i) : tl = tl' := by
  funext k
  have := h k.val k.isLt
  rwa [rd_val, rd_val] at this

/-! ## Loops as folds -/

theorem foldl_range_induct {σ : Type} (f : σ → Nat → σ) (P : Nat → σ → Prop) (s0 : σ)
    (n : Nat) (h0 : P 0 s0) (hs : ∀ i s, i < n → P i s → P (i + 1) (f s i)) :
    P n ((List.range n).foldl f s0) := by
  induction n with
  | zero => simpa using h0
  | succ m ih =>
    rw [List.range_succ, List.foldl_append]
    simp only [List.foldl_cons, List.foldl_nil]
    apply hs m _ (Nat.lt_succ_self m)
    exact ih (fun i s hi hP => hs i s (Nat.lt_succ_of_lt hi) hP)

theorem foldl_range'_induct {σ : Type} (f : σ → Nat → σ) (P : Nat → σ → Prop) (n : Nat) :
    ∀ (lo : Nat) (s0 : σ), P lo s0 →
      (∀ i s, lo ≤ i → i < lo + n → P i s → P (i + 1) (f s i)) →
      P (lo + n) ((List.range' lo n).foldl f s0) := by
  induction n with
  | zero =>
    intro lo s0 h0 _
    simpa using h0
  | succ m ih =>
    intro lo s0 h0 hs
    rw [List.range'_succ, List.foldl_cons]
    have h1 : P (lo + 1) (f s0 lo) := hs lo s0 (Nat.le_refl lo) (by omega) h0
    have := ih (lo + 1) (f s0 lo) h1 (fun i s hlo hhi hP => hs i s (by omega) (by omega) hP)
    have e : lo + 1 + m = lo + (m + 1) := by omega
    rwa [e] at this

/-! ## `TaskScheduler_Init` -/

theorem init_task_list_rd (s : Scheduler) (T : Nat) (k : Nat) (hk : k < TASKSCHEDULER_MAX_TASKS) :
    (TaskScheduler_Init s T).task_list.rd k = { s.task_list.rd k with active := 0 } := by
  have key : ∀ j, ((List.range TASKSCHEDULER_MAX_TASKS).foldl initStep s.task_list).rd j
      = if j < TASKSCHEDULER_MAX_TASKS then { s.task_list.rd j with active := 0 }
        else s.task_list.rd j := by
    refine foldl_range_induct initStep
      (fun i tl => ∀ j, tl.rd j = if j < i then { s.task_list.rd j with active := 0 }
        else s.task_list.rd j) s.task_list TASKSCHEDULER_MAX_TASKS ?_ ?_
    · intro j
      simp
    · intro i tl hi hP j
      unfold initStep
      rw [rd_wr]
      by_cases hji : j = i
      · subst hji
        have := hP j
        simp [hi] at this ⊢
        simp [this]
      · have := hP j
        have h1 : (j < i + 1) ↔ (j < i) := by omega
        simp [hji, h1, this]
  have := key k
  simpa [TaskScheduler_Init, hk] using this

/-! ## `TaskScheduler_AddTask` -/

theorem addTaskLoop_cases (s : Scheduler) (I cb p : Nat) : ∀ (n i : Nat),
    ((∀ k, i ≤ k → k < i + n → (s.task_list.rd k).active ≠ 0) ∧
        addTaskLoop s I cb p i n = (s, -1)) ∨
    (∃ k, i ≤ k ∧ k < i + n ∧ (s.task_list.rd k).active = 0 ∧
        (∀ m, i ≤ m → m < k → (s.task_list.rd m).active ≠ 0) ∧
        addTaskLoop s I cb p i n =
          ({ task_list := s.task_list.wr k (newTask I cb p),
             tick_per_second := s.tick_per_second }, (k : Int))) := by
  intro n
  induction n with
  | zero =>
    intro i
    left
    exact ⟨fun k h1 h2 => absurd h2 (by omega), rfl⟩
  | succ m ih =>
    intro i
    by_cases hfree : (s.task_list.rd i).active = 0
    · right
      refine ⟨i, Nat.le_refl i, by omega, hfree, fun m h1 h2 => absurd h2 (by omega), ?_⟩
      simp [addTaskLoop, hfree, newTask]
    · rcases ih (i + 1) with ⟨hall, hres⟩ | ⟨k, hk1, hk2, hk3, hk4, hres⟩
      · left
        refine ⟨?_, ?_⟩
        · intro k h1 h2
          by_cases hki : k = i
          · subst hki
            exact hfree
          · exact hall k (by omega) (by omega)
        · simp [addTaskLoop, hfree, hres]
      · right
        refine ⟨k, by omega, by omega, hk3, ?_, ?_⟩
        · intro m' h1 h2
          by_cases hmi : m' = i
          · subst hmi
            exact hfree
          · exact hk4 m' (by omega) h2
        · simp [addTaskLoop, hfree, hres]

theorem addTask_cases (s : Scheduler) (f cb p : Nat) :
    (rejected s f cb ∧ TaskScheduler_AddTask s f cb p = (s, -1)) ∨
    (¬ rejected s f cb ∧ (∀ k, k < TASKSCHEDULER_MAX_TASKS → (s.task_list.rd k).active ≠ 0) ∧
        TaskScheduler_AddTask s f cb p = (s, -1)) ∨
    (¬ rejected s f cb ∧ ∃ k, k < TASKSCHEDULER_MAX_TASKS ∧ (s.task_list.rd k).active = 0 ∧
        (∀ m, m < k → (s.task_list.rd m).active ≠ 0) ∧
        TaskScheduler_AddTask s f cb p =
          ({ task_list := s.task_list.wr k (newTask (intervalTicks s.tick_per_second f) cb p),
             tick_per_second := s.tick_per_second }, (k : Int))) := by
  by_cases hrej : rejected s f cb
  · left
    refine ⟨hrej, ?_⟩
    unfold rejected at hrej
    simp [TaskScheduler_AddTask, hrej]
  · right
    have hun : TaskScheduler_AddTask s f cb p =
        addTaskLoop s (intervalTicks s.tick_per_second f) cb p 0 TASKSCHEDULER_MAX_TASKS := by
      unfold rejected at hrej
      simp only [TaskScheduler_AddTask]
      rw [if_neg hrej]
    rcases addTaskLoop_cases s (intervalTicks s.tick_per_second f) cb p
        TASKSCHEDULER_MAX_TASKS 0 with ⟨hall, hres⟩ | ⟨k, _, hk2, hk3, hk4, hres⟩
    · left
      exact ⟨hrej, fun k hk => hall k (Nat.zero_le k) (by omega), hun.trans hres⟩
    · right
      exact ⟨hrej, k, by omega, hk3, fun m hm => hk4 m (Nat.zero_le m) hm, hun.trans hres⟩

/-! ## The sorting loops of `TaskScheduler_Update` -/

theorem length_swapIdx (a : List Nat) (i j : Nat) : (swapIdx a i j).length = a.length := by
  simp [swapIdx]

theorem getD_swapIdx (a : List Nat) (i j m : Nat) (hi : i < a.length) (hj : j < a.length) :
    (swapIdx a i j).getD m 0
      = if m = j then a.getD i 0 else if m = i then a.getD j 0 else a.getD m 0 := by
  unfold swapIdx
  simp only [List.getD_eq_getElem?_getD, List.getElem?_set, List.length_set]
  by_cases h1 : m = j
  · subst h1
    simp [hj]
  · by_cases h2 : m = i
    · subst h2
      have : ¬ j = m := fun h => h1 h.symm
      simp [this, hi, h1]
    · have a1 : ¬ j = m := fun h => h1 h.symm
      have a2 : ¬ i = m := fun h => h2 h.symm
      simp [a1, a2, h1, h2]

theorem keyAt_swapIdx (tl : TaskList) (a : List Nat) (i j m : Nat) (hi : i < a.length)
    (hj : j < a.length) :
    keyAt tl (swapIdx a i j) m
      = if m = j then keyAt tl a i else if m = i then keyAt tl a j else keyAt tl a m := by
  unfold keyAt
  rw [getD_swapIdx a i j m hi hj]
  split_ifs <;> rfl

theorem cons_set_perm : ∀ (xs : List Nat) (j x : Nat), j < xs.length →
    (xs.getD j 0 :: xs.set j x).Perm (x :: xs) := by
  intro xs
  induction xs with
  | nil =>
    intro j x h
    simp at h
  | cons y ys ih =>
    intro j x h
    cases j with
    | zero => simpa using List.Perm.swap x y ys
    | succ j' =>
      have h' : j' < ys.length := by simpa using h
      have step := ih j' x h'
      simp only [List.getD_cons_succ, List.set_cons_succ]
      exact (List.Perm.swap y _ _).trans ((List.Perm.cons y step).trans (List.Perm.swap x y ys))

theorem perm_swapIdx : ∀ (a : List Nat) (i j : Nat), i < j → j < a.length →
    (swapIdx a i j).Perm a := by
  intro a
  induction a with
  | nil =>
    intro i j _ h
    simp at h
  | cons y ys ih =>
    intro i j hij hj
    cases j with
    | zero => omega
    | succ j' =>
      have hj' : j' < ys.length := by simpa using hj
      cases i with
      | zero => simpa [swapIdx] using cons_set_perm ys j' y hj'
      | succ i' =>
        have step := ih i' j' (by omega) hj'
        simpa [swapIdx] using step

theorem sortStep_eq (tl : TaskList) (i : Nat) (a : List Nat) (j : Nat) :
    sortStep tl i a j = if keyAt tl a j < keyAt tl a i then swapIdx a i j else a := rfl

/-- One run of the inner loop at outer index `i`: the length is kept, the
first `i + 1` positions hold entries no larger than everything to their right,
and any property `R` kept by the swaps the loop can make is kept. -/
theorem sortInner_spec (tl : TaskList) (R : List Nat → Prop)
    (hR : ∀ a i j, i < j → j < a.length →
      (∀ m, i < m → m < j → keyAt tl a i ≤ keyAt tl a m) →
      keyAt tl a j < keyAt tl a i → R a → R (swapIdx a i j))
    (a : List Nat) (i : Nat)
    (hQ : ∀ m m', m < i → m < m' → m' < a.length → keyAt tl a m ≤ keyAt tl a m')
    (hRa : R a) :
    (sortInner tl a i).length = a.length ∧
    (∀ m m', m < i + 1 → m < m' → m' < a.length →
      keyAt tl (sortInner tl a i) m ≤ keyAt tl (sortInner tl a i) m') ∧
    R (sortInner tl a i) := by
  have key := foldl_range'_induct (sortStep tl i)
    (fun j b => b.length = a.length ∧
      (∀ m m', m < i → m < m' → m' < a.length → keyAt tl b m ≤ keyAt tl b m') ∧
      (∀ m, i < m → m < j → keyAt tl b i ≤ keyAt tl b m) ∧ R b)
    (a.length - (i + 1)) (i + 1) a
    ⟨rfl, hQ, fun m h1 h2 => absurd h2 (by omega), hRa⟩
    (by
      intro j b hlo hhi ⟨hlen, hQb, hIn, hRb⟩
      have hjlen : j < b.length := by omega
      have hilen : i < b.length := by omega
      rw [sortStep_eq]
      by_cases hlt : keyAt tl b j < keyAt tl b i
      · rw [if_pos hlt]
        refine ⟨by rw [length_swapIdx, hlen], ?_, ?_, hR b i j (by omega) hjlen hIn hlt hRb⟩
        · intro m m' h1 h2 h3
          rw [keyAt_swapIdx tl b i j m hilen hjlen, keyAt_swapIdx tl b i j m' hilen hjlen]
          have e1 : ¬ m = j := by omega
          have e2 : ¬ m = i := by omega
          rw [if_neg e1, if_neg e2]
          split_ifs
          · exact hQb m i h1 h1 (by omega)
          · exact hQb m j h1 (by omega) (by omega)
          · exact hQb m m' h1 h2 h3
        · intro m h1 h2
          rw [keyAt_swapIdx tl b i j m hilen hjlen, keyAt_swapIdx tl b i j i hilen hjlen]
          have e1 : ¬ i = j := by omega
          have e2 : ¬ m = i := by omega
          rw [if_neg e1, if_pos rfl, if_neg e2]
          by_cases hmj : m = j
          · rw [if_pos hmj]
            exact Nat.le_of_lt hlt
          · rw [if_neg hmj]
            exact Nat.le_trans (Nat.le_of_lt hlt) (hIn m h1 (by omega))
      · rw [if_neg hlt]
        refine ⟨hlen, hQb, ?_, hRb⟩
        intro m h1 h2
        by_cases hmj : m = j
        · subst hmj
          exact Nat.le_of_not_lt hlt
        · exact hIn m h1 (by omega))
  obtain ⟨hlen, hQb, hIn, hRb⟩ := key
  refine ⟨hlen, ?_, hRb⟩
  intro m m' h1 h2 h3
  by_cases hmi : m = i
  · subst hmi
    exact hIn m' h2 (by omega)
  · exact hQb m m' (by omega) h2 h3

/-- The whole sort: the length is kept, the result is ordered by priority
position by position, and any property kept by the swaps is kept. -/
theorem sortReady_spec (tl : TaskList) (R : List Nat → Prop)
    (hR : ∀ a i j, i < j → j < a.length →
      (∀ m, i < m → m < j → keyAt tl a i ≤ keyAt tl a m) →
      keyAt tl a j < keyAt tl a i → R a → R (swapIdx a i j))
    (a : List Nat) (hRa : R a) :
    (sortReady tl a).length = a.length ∧
    (∀ m m', m < m' → m' < a.length →
      keyAt tl (sortReady tl a) m ≤ keyAt tl (sortReady tl a) m') ∧
    R (sortReady tl a) := by
  have key := foldl_range_induct (sortInner tl)
    (fun i b => b.length = a.length ∧
      (∀ m m', m < i → m < m' → m' < a.length → keyAt tl b m ≤ keyAt tl b m') ∧ R b)
    a (a.length - 1)
    ⟨rfl, fun m m' h1 _ _ => absurd h1 (by omega), hRa⟩
    (by
      intro i b _ ⟨hlen, hQb, hRb⟩
      have h := sortInner_spec tl R hR b i (by rw [hlen]; exact hQb) hRb
      rw [hlen] at h
      exact h)
  obtain ⟨hlen, hQb, hRb⟩ := key
  exact ⟨hlen, fun m m' h1 h2 => hQb m m' (by omega) h1 h2, hRb⟩

theorem sortReady_length (tl : TaskList) (a : List Nat) :
    (sortReady tl a).length = a.length :=
  (sortReady_spec tl (fun _ => True) (fun _ _ _ _ _ _ _ _ => trivial) a trivial).1

theorem sortReady_perm (tl : TaskList) (a : List Nat) : (sortReady tl a).Perm a :=
  (sortReady_spec tl (fun b => b.Perm a)
    (fun b i j hij hj _ _ hb => (perm_swapIdx b i j hij hj).trans hb) a (List.Perm.refl a)).2.2

theorem sortReady_sorted (tl : TaskList) (a : List Nat) :
    (sortReady tl a).Pairwise (fun x y => (tl.rd x).priority ≤ (tl.rd y).priority) := by
  obtain ⟨hlen, hQ, _⟩ :=
    sortReady_spec tl (fun _ => True) (fun _ _ _ _ _ _ _ _ => trivial) a trivial
  rw [List.pairwise_iff_getElem]
  intro m m' hm hm' hlt
  have := hQ m m' hlt (by omega)
  unfold keyAt at this
  rwa [List.getD_eq_getElem _ _ hm, List.getD_eq_getElem _ _ hm'] at this

/-- A swap made by the sort keeps two equal-priority entries in their
relative order, as long as nothing to the right of the later one has a
strictly smaller priority. -/
theorem swap_keeps_order (tl : TaskList) (I J p : Nat)
    (hI : (tl.rd I).priority = p) (hJ : (tl.rd J).priority = p)
    (b : List Nat) (i j : Nat) (hij : i < j) (hj : j < b.length)
    (hIn : ∀ m, i < m → m < j → keyAt tl b i ≤ keyAt tl b m)
    (hlt : keyAt tl b j < keyAt tl b i)
    (hb : ∃ u v, u < v ∧ v < b.length ∧ b.getD u 0 = I ∧ b.getD v 0 = J ∧
      ∀ m, v < m → m < b.length → p ≤ keyAt tl b m) :
    ∃ u v, u < v ∧ v < (swapIdx b i j).length ∧ (swapIdx b i j).getD u 0 = I ∧
      (swapIdx b i j).getD v 0 = J ∧
      ∀ m, v < m → m < (swapIdx b i j).length → p ≤ keyAt tl (swapIdx b i j) m := by
  obtain ⟨u, v, huv, hv, hu0, hv0, htail⟩ := hb
  have hi : i < b.length := by omega
  have ku : keyAt tl b u = p := by
    unfold keyAt
    rw [hu0, hI]
  have kv : keyAt tl b v = p := by
    unfold keyAt
    rw [hv0, hJ]
  have G := fun m => getD_swapIdx b i j m hi hj
  have K := fun m => keyAt_swapIdx tl b i j m hi hj
  rw [length_swapIdx]
  rcases Nat.lt_trichotomy j v with hjv | hjv | hjv
  · -- the later entry lies to the right of both swapped positions
    by_cases hju : j = u
    · refine ⟨i, v, by omega, hv, ?_, ?_, ?_⟩
      · rw [G i, if_neg (by omega), if_pos rfl, hju, hu0]
      · rw [G v, if_neg (by omega), if_neg (by omega), hv0]
      · intro m h1 h2
        rw [K m, if_neg (by omega), if_neg (by omega)]
        exact htail m h1 h2
    · by_cases hiu : i = u
      · refine ⟨j, v, hjv, hv, ?_, ?_, ?_⟩
        · rw [G j, if_pos rfl, hiu, hu0]
        · rw [G v, if_neg (by omega), if_neg (by omega), hv0]
        · intro m h1 h2
          rw [K m, if_neg (by omega), if_neg (by omega)]
          exact htail m h1 h2
      · refine ⟨u, v, huv, hv, ?_, ?_, ?_⟩
        · rw [G u, if_neg (fun h => hju h.symm), if_neg (fun h => hiu h.symm), hu0]
        · rw [G v, if_neg (by omega), if_neg (by omega), hv0]
        · intro m h1 h2
          rw [K m, if_neg (by omega), if_neg (by omega)]
          exact htail m h1 h2
  · -- the later entry is the one moved to the front
    subst hjv
    have hpi : p < keyAt tl b i := by
      rw [← kv]
      exact hlt
    have hiu : i ≠ u := by
      intro h
      rw [h, ku] at hpi
      exact Nat.lt_irrefl p hpi
    have hui : u < i := by
      rcases Nat.lt_or_ge u i with h | h
      · exact h
      · exfalso
        have := hIn u (by omega) huv
        rw [ku] at this
        omega
    refine ⟨u, i, hui, hi, ?_, ?_, ?_⟩
    · rw [G u, if_neg (by omega), if_neg (by omega), hu0]
    · rw [G i, if_neg (by omega), if_pos rfl, hv0]
    · intro m h1 h2
      rw [K m]
      by_cases hmj : m = j
      · rw [if_pos hmj]
        exact Nat.le_of_lt hpi
      · rw [if_neg hmj, if_neg (by omega)]
        rcases Nat.lt_or_ge m j with h | h
        · exact Nat.le_trans (Nat.le_of_lt hpi) (hIn m h1 h)
        · exact htail m (by omega) h2
  · -- both swapped entries have priorities above the tie or lie left of it
    have hpj : p ≤ keyAt tl b j := htail j hjv hj
    have hpi : p < keyAt tl b i := Nat.lt_of_le_of_lt hpj hlt
    have hiu : i ≠ u := by
      intro h
      rw [h, ku] at hpi
      exact Nat.lt_irrefl p hpi
    have hiv : i ≠ v := by
      intro h
      rw [h, kv] at hpi
      exact Nat.lt_irrefl p hpi
    refine ⟨u, v, huv, hv, ?_, ?_, ?_⟩
    · rw [G u, if_neg (by omega), if_neg (fun h => hiu h.symm), hu0]
    · rw [G v, if_neg (by omega), if_neg (fun h => hiv h.symm), hv0]
    · intro m h1 h2
      rw [K m]
      by_cases hmj : m = j
      · rw [if_pos hmj]
        exact Nat.le_of_lt hpi
      · rw [if_neg hmj]
        by_cases hmi : m = i
        · rw [if_pos hmi]
          exact hpj
        · rw [if_neg hmi]
          exact htail m h1 h2

/-- Two entries of equal priority keep their relative order through the sort
when no entry to the right of the later one has a strictly smaller priority. -/
theorem sortReady_keeps_order (tl : TaskList) (a : List Nat) (I J p u v : Nat)
    (hI : (tl.rd I).priority = p) (hJ : (tl.rd J).priority = p)
    (huv : u < v) (hv : v < a.length) (hu0 : a.getD u 0 = I) (hv0 : a.getD v 0 = J)
    (htail : ∀ m, v < m → m < a.length → p ≤ keyAt tl a m) :
    ∃ u' v', u' < v' ∧ v' < (sortReady tl a).length ∧
      (sortReady tl a).getD u' 0 = I ∧ (sortReady tl a).getD v' 0 = J := by
  obtain ⟨_, _, u', v', h1, h2, h3, h4, _⟩ :=
    sortReady_spec tl
      (fun b => ∃ u v, u < v ∧ v < b.length ∧ b.getD u 0 = I ∧ b.getD v 0 = J ∧
        ∀ m, v < m → m < b.length → p ≤ keyAt tl b m)
      (fun b i j hij hj hIn hlt hb => swap_keeps_order tl I J p hI hJ b i j hij hj hIn hlt hb)
      a ⟨u, v, huv, hv, hu0, hv0, htail⟩
  exact ⟨u', v', h1, h2, h3, h4⟩

/-! ## The readiness and dispatch loops of `TaskScheduler_Update` -/

theorem readyPass_spec (tl : TaskList) :
    (readyPass tl).2 = readySet tl ∧
    ∀ j, (readyPass tl).1.rd j
      = if j < TASKSCHEDULER_MAX_TASKS then ticked (tl.rd j) else tl.rd j := by
  refine foldl_range_induct readyStep
    (fun i st => st.2 = (List.range i).filter (isReady tl) ∧
      ∀ j, st.1.rd j = if j < i then ticked (tl.rd j) else tl.rd j)
    (tl, []) TASKSCHEDULER_MAX_TASKS ⟨by simp, fun j => by simp⟩ ?_
  intro i st hi ⟨h2, h1⟩
  have hrd : st.1.rd i = tl.rd i := by
    rw [h1 i, if_neg (Nat.lt_irrefl i)]
  by_cases hact : (tl.rd i).active = 0
  · have hstep : readyStep st i = st := by
      simp [readyStep, hrd, hact]
    rw [hstep]
    refine ⟨?_, ?_⟩
    · rw [h2, List.range_succ, List.filter_append]
      simp [isReady, hact]
    · intro j
      rw [h1 j]
      by_cases hji : j = i
      · subst hji
        simp [ticked, hact]
      · have e : (j < i + 1) ↔ (j < i) := by omega
        simp only [e]
  · by_cases hc : decr32 (tl.rd i).counter = 0
    · have hstep : readyStep st i
          = (st.1.wr i { tl.rd i with counter := decr32 (tl.rd i).counter }, st.2 ++ [i]) := by
        simp [readyStep, hrd, hact, hc]
      rw [hstep]
      refine ⟨?_, ?_⟩
      · simp only []
        rw [h2, List.range_succ, List.filter_append]
        simp [isReady, hact, hc]
      · intro j
        simp only []
        rw [rd_wr]
        by_cases hji : j = i
        · subst hji
          simp [hi, ticked, hact]
        · have e : (j < i + 1) ↔ (j < i) := by omega
          simp only [hji, false_and, if_false, e]
          exact h1 j
    · have hstep : readyStep st i
          = (st.1.wr i { tl.rd i with counter := decr32 (tl.rd i).counter }, st.2) := by
        simp [readyStep, hrd, hact, hc]
      rw [hstep]
      refine ⟨?_, ?_⟩
      · simp only []
        rw [h2, List.range_succ, List.filter_append]
        simp [isReady, hact, hc]
      · intro j
        simp only []
        rw [rd_wr]
        by_cases hji : j = i
        · subst hji
          simp [hi, ticked, hact]
        · have e : (j < i + 1) ↔ (j < i) := by omega
          simp only [hji, false_and, if_false, e]
          exact h1 j

theorem dispatch_foldl (l : List Nat) : ∀ (tl : TaskList) (acc : List Call),
    (l.foldl dispatchStep (tl, acc)).2
        = acc ++ l.map (fun idx => { slot := idx, callback := (tl.rd idx).callback }) ∧
    ∀ j, (l.foldl dispatchStep (tl, acc)).1.rd j
        = if j ∈ l ∧ j < TASKSCHEDULER_MAX_TASKS then reloaded (tl.rd j) else tl.rd j := by
  induction l with
  | nil =>
    intro tl acc
    simp
  | cons idx l ih =>
    intro tl acc
    rw [List.foldl_cons]
    have hstep : dispatchStep (tl, acc) idx
        = (tl.wr idx (reloaded (tl.rd idx)),
           acc ++ [{ slot := idx, callback := (tl.rd idx).callback }]) := rfl
    rw [hstep]
    obtain ⟨ih2, ih1⟩ := ih (tl.wr idx (reloaded (tl.rd idx)))
      (acc ++ [{ slot := idx, callback := (tl.rd idx).callback }])
    have hcb : ∀ x, ((tl.wr idx (reloaded (tl.rd idx))).rd x).callback = (tl.rd x).callback := by
      intro x
      rw [rd_wr]
      split_ifs with h
      · rw [h.1]
        rfl
      · rfl
    refine ⟨?_, ?_⟩
    · rw [ih2]
      simp [hcb]
    · intro j
      rw [ih1 j, rd_wr]
      by_cases hji : j = idx
      · subst hji
        by_cases hj : j < TASKSCHEDULER_MAX_TASKS
        · simp [hj, reloaded]
        · simp [hj]
      · simp [hji]

theorem dispatchPass_spec (tl : TaskList) (l : List Nat) :
    (dispatchPass tl l).2
        = l.map (fun idx => { slot := idx, callback := (tl.rd idx).callback }) ∧
    ∀ j, (dispatchPass tl l).1.rd j
        = if j ∈ l ∧ j < TASKSCHEDULER_MAX_TASKS then reloaded (tl.rd j) else tl.rd j := by
  have := dispatch_foldl l tl []
  simpa [dispatchPass] using this

/-! ## `TaskScheduler_Update` as a whole -/

theorem ticked_priority (t : TaskScheduler_Task) : (ticked t).priority = t.priority := by
  unfold ticked
  split_ifs <;> rfl

theorem ticked_callback (t : TaskScheduler_Task) : (ticked t).callback = t.callback := by
  unfold ticked
  split_ifs <;> rfl

theorem ticked_active (t : TaskScheduler_Task) : (ticked t).active = t.active := by
  unfold ticked
  split_ifs <;> rfl

theorem ticked_interval (t : TaskScheduler_Task) :
    (ticked t).interval_ticks = t.interval_ticks := by
  unfold ticked
  split_ifs <;> rfl

theorem readyPass_priority (tl : TaskList) (x : Nat) :
    ((readyPass tl).1.rd x).priority = (tl.rd x).priority := by
  rw [(readyPass_spec tl).2 x]
  split_ifs
  · exact ticked_priority _
  · rfl

theorem readyPass_callback (tl : TaskList) (x : Nat) :
    ((readyPass tl).1.rd x).callback = (tl.rd x).callback := by
  rw [(readyPass_spec tl).2 x]
  split_ifs
  · exact ticked_callback _
  · rfl

theorem mem_readySet (tl : TaskList) (j : Nat) :
    j ∈ readySet tl ↔ j < TASKSCHEDULER_MAX_TASKS ∧ isReady tl j = true := by
  simp [readySet]

theorem nodup_readySet (tl : TaskList) : (readySet tl).Nodup :=
  List.Nodup.filter _ (List.nodup_range _)

theorem update_slots (s : Scheduler) :
    slotsOf (TaskScheduler_Update s).2
      = sortReady (readyPass s.task_list).1 (readySet s.task_list) := by
  simp only [TaskScheduler_Update, slotsOf]
  rw [(dispatchPass_spec _ _).1, (readyPass_spec s.task_list).1, List.map_map]
  exact List.map_id _

theorem update_slots_perm (s : Scheduler) :
    (slotsOf (TaskScheduler_Update s).2).Perm (readySet s.task_list) := by
  rw [update_slots]
  exact sortReady_perm _ _

theorem update_slots_nodup (s : Scheduler) : (slotsOf (TaskScheduler_Update s).2).Nodup :=
  (update_slots_perm s).nodup_iff.mpr (nodup_readySet _)

theorem mem_update_slots (s : Scheduler) (j : Nat) :
    j ∈ slotsOf (TaskScheduler_Update s).2
      ↔ j < TASKSCHEDULER_MAX_TASKS ∧ isReady s.task_list j = true := by
  rw [(update_slots_perm s).mem_iff, mem_readySet]

theorem update_slots_sorted (s : Scheduler) :
    (slotsOf (TaskScheduler_Update s).2).Pairwise
      (fun x y => (s.task_list.rd x).priority ≤ (s.task_list.rd y).priority) := by
  rw [update_slots]
  refine List.Pairwise.imp ?_ (sortReady_sorted (readyPass s.task_list).1 (readySet s.task_list))
  intro x y h
  rwa [readyPass_priority, readyPass_priority] at h

theorem update_calls (s : Scheduler) :
    (TaskScheduler_Update s).2
      = (slotsOf (TaskScheduler_Update s).2).map
          (fun idx => { slot := idx, callback := (s.task_list.rd idx).callback }) := by
  rw [update_slots]
  simp only [TaskScheduler_Update]
  rw [(dispatchPass_spec _ _).1, (readyPass_spec s.task_list).1]
  simp only [readyPass_callback]

theorem update_tick (s : Scheduler) :
    (TaskScheduler_Update s).1.tick_per_second = s.tick_per_second := by
  simp only [TaskScheduler_Update]

theorem update_rd (s : Scheduler) (j : Nat) (hj : j < TASKSCHEDULER_MAX_TASKS) :
    (TaskScheduler_Update s).1.task_list.rd j
      = if isReady s.task_list j = true then reloaded (ticked (s.task_list.rd j))
        else ticked (s.task_list.rd j) := by
  have hmem := mem_update_slots s j
  rw [update_slots] at hmem
  simp only [TaskScheduler_Update]
  rw [(dispatchPass_spec _ _).2 j, (readyPass_spec s.task_list).1, (readyPass_spec s.task_list).2 j,
    if_pos hj]
  by_cases hr : isReady s.task_list j = true
  · rw [if_pos hr, if_pos ⟨hmem.mpr ⟨hj, hr⟩, hj⟩]
  · rw [if_neg hr, if_neg]
    intro h
    exact hr (hmem.mp h.1).2

/-! ## One slot across calls of `TaskScheduler_Update` -/

theorem decr32_of_pos (c : Nat) (h1 : 1 ≤ c) (h2 : c < UINT32_MOD) : decr32 c = c - 1 := by
  unfold decr32 UINT32_MOD at *
  omega

theorem isReady_iff (tl : TaskList) (j : Nat) :
    isReady tl j = true ↔ (tl.rd j).active ≠ 0 ∧ decr32 (tl.rd j).counter = 0 := by
  simp [isReady]

/-- An active slot whose counter is `1` is dispatched and reloaded. -/
theorem update_slot_fire (s : Scheduler) (k : Nat) (hk : k < TASKSCHEDULER_MAX_TASKS)
    (hact : (s.task_list.rd k).active ≠ 0) (hc : (s.task_list.rd k).counter = 1) :
    k ∈ slotsOf (TaskScheduler_Update s).2 ∧
    (TaskScheduler_Update s).1.task_list.rd k
      = { s.task_list.rd k with counter := (s.task_list.rd k).interval_ticks } := by
  have hd : decr32 (s.task_list.rd k).counter = 0 := by
    rw [hc]
    decide
  have hr : isReady s.task_list k = true := (isReady_iff _ _).mpr ⟨hact, hd⟩
  refine ⟨(mem_update_slots s k).mpr ⟨hk, hr⟩, ?_⟩
  rw [update_rd s k hk, if_pos hr]
  simp [reloaded, ticked, hact]

/-- An active slot whose counter is above `1` is not dispatched and counts
down by one. -/
theorem update_slot_wait (s : Scheduler) (k : Nat) (hk : k < TASKSCHEDULER_MAX_TASKS)
    (hact : (s.task_list.rd k).active ≠ 0) (hc1 : 1 < (s.task_list.rd k).counter)
    (hc2 : (s.task_list.rd k).counter < UINT32_MOD) :
    k ∉ slotsOf (TaskScheduler_Update s).2 ∧
    (TaskScheduler_Update s).1.task_list.rd k
      = { s.task_list.rd k with counter := (s.task_list.rd k).counter - 1 } := by
  have hd : decr32 (s.task_list.rd k).counter = (s.task_list.rd k).counter - 1 :=
    decr32_of_pos _ (Nat.le_of_lt hc1) hc2
  have hr : ¬ isReady s.task_list k = true := by
    rw [isReady_iff, hd]
    intro h
    omega
  refine ⟨fun h => hr ((mem_update_slots s k).mp h).2, ?_⟩
  rw [update_rd s k hk, if_neg hr]
  simp [ticked, hact, hd]

/-- An inactive slot is neither dispatched nor changed. -/
theorem update_slot_inactive (s : Scheduler) (k : Nat) (hk : k < TASKSCHEDULER_MAX_TASKS)
    (hact : (s.task_list.rd k).active = 0) :
    k ∉ slotsOf (TaskScheduler_Update s).2 ∧
    (TaskScheduler_Update s).1.task_list.rd k = s.task_list.rd k := by
  have hr : ¬ isReady s.task_list k = true := by
    rw [isReady_iff]
    intro h
    exact h.1 hact
  refine ⟨fun h => hr ((mem_update_slots s k).mp h).2, ?_⟩
  rw [update_rd s k hk, if_neg hr]
  simp [ticked, hact]

theorem count_update_slots (s : Scheduler) (k : Nat) :
    (slotsOf (TaskScheduler_Update s).2).count k
      = if k ∈ slotsOf (TaskScheduler_Update s).2 then 1 else 0 := by
  split_ifs with h
  · exact List.count_eq_one_of_mem (update_slots_nodup s) h
  · exact List.count_eq_zero.mpr h

/-- A freshly registered slot with interval `I` after `m` calls of
`TaskScheduler_Update`: its counter `c` satisfies `1 ≤ c ≤ I` and
`I ∣ m + c`. -/
theorem periodic_invariant (s : Scheduler) (k I cb p : Nat) (hk : k < TASKSCHEDULER_MAX_TASKS)
    (hI1 : 1 ≤ I) (hI2 : I < UINT32_MOD)
    (h0 : s.task_list.rd k = newTask I cb p) (m : Nat) :
    ∃ c, 1 ≤ c ∧ c ≤ I ∧ I ∣ m + c ∧
      (updateN m s).task_list.rd k
        = { interval_ticks := I, counter := c, callback := cb, priority := p, active := 1 } := by
  induction m with
  | zero =>
    refine ⟨I, hI1, Nat.le_refl I, ?_, ?_⟩
    · simp
    · simpa [updateN, newTask] using h0
  | succ m ih =>
    obtain ⟨c, hc1, hc2, hdvd, hrd⟩ := ih
    have hact : ((updateN m s).task_list.rd k).active ≠ 0 := by
      rw [hrd]
      exact Nat.one_ne_zero
    by_cases hc : c = 1
    · have hcnt : ((updateN m s).task_list.rd k).counter = 1 := by
        rw [hrd]
        exact hc
      obtain ⟨_, hnew⟩ := update_slot_fire (updateN m s) k hk hact hcnt
      refine ⟨I, hI1, Nat.le_refl I, ?_, ?_⟩
      · subst hc
        exact Dvd.dvd.add hdvd (dvd_refl I)
      · show (TaskScheduler_Update (updateN m s)).1.task_list.rd k = _
        rw [hnew, hrd]
    · have hcnt1 : 1 < ((updateN m s).task_list.rd k).counter := by
        rw [hrd]
        show 1 < c
        omega
      have hcnt2 : ((updateN m s).task_list.rd k).counter < UINT32_MOD := by
        rw [hrd]
        show c < UINT32_MOD
        omega
      obtain ⟨_, hnew⟩ := update_slot_wait (updateN m s) k hk hact hcnt1 hcnt2
      refine ⟨c - 1, by omega, by omega, ?_, ?_⟩
      · have e : m + 1 + (c - 1) = m + c := by omega
        rw [e]
        exact hdvd
      · show (TaskScheduler_Update (updateN m s)).1.task_list.rd k = _
        rw [hnew, hrd]

/-- The `n`-th call after registration dispatches the slot exactly when the
interval divides `n`. -/
theorem periodic_dispatch (s : Scheduler) (k I cb p : Nat) (hk : k < TASKSCHEDULER_MAX_TASKS)
    (hI1 : 1 ≤ I) (hI2 : I < UINT32_MOD)
    (h0 : s.task_list.rd k = newTask I cb p) (n : Nat) (hn : 1 ≤ n) :
    (k ∈ slotsOf (nthUpdateCalls s n) ↔ I ∣ n) ∧
    ((updateN (n - 1) s).task_list.rd k).callback = cb := by
  obtain ⟨c, hc1, hc2, hdvd, hrd⟩ := periodic_invariant s k I cb p hk hI1 hI2 h0 (n - 1)
  have hact : ((updateN (n - 1) s).task_list.rd k).active ≠ 0 := by
    rw [hrd]
    exact Nat.one_ne_zero
  refine ⟨?_, by rw [hrd]⟩
  unfold nthUpdateCalls
  by_cases hc : c = 1
  · have hcnt : ((updateN (n - 1) s).task_list.rd k).counter = 1 := by
      rw [hrd]
      exact hc
    have e : n - 1 + c = n := by omega
    rw [e] at hdvd
    exact ⟨fun _ => hdvd, fun _ => (update_slot_fire _ k hk hact hcnt).1⟩
  · have hcnt1 : 1 < ((updateN (n - 1) s).task_list.rd k).counter := by
      rw [hrd]
      show 1 < c
      omega
    have hcnt2 : ((updateN (n - 1) s).task_list.rd k).counter < UINT32_MOD := by
      rw [hrd]
      show c < UINT32_MOD
      omega
    have hnot := (update_slot_wait _ k hk hact hcnt1 hcnt2).1
    refine ⟨fun h => absurd h hnot, fun h => ?_⟩
    exfalso
    have h2 : I ∣ (n - 1 + c) - n := Nat.dvd_sub' hdvd h
    have e : (n - 1 + c) - n = c - 1 := by omega
    rw [e] at h2
    have := Nat.le_of_dvd (by omega) h2
    omega

/-! ## Facts about registration used by the claims -/

theorem intervalTicks_eq_max (T f : Nat) : intervalTicks T f = max 1 (T / f) := by
  unfold intervalTicks
  by_cases h : T / f = 0
  · simp [h]
  · have : 1 ≤ T / f := Nat.one_le_iff_ne_zero.mpr h
    simp [h, Nat.max_eq_right this]

theorem intervalTicks_pos (T f : Nat) : 1 ≤ intervalTicks T f := by
  rw [intervalTicks_eq_max]
  exact Nat.le_max_left 1 _

theorem intervalTicks_le (T f : Nat) (hT : 1 ≤ T) : intervalTicks T f ≤ T := by
  rw [intervalTicks_eq_max]
  exact Nat.max_le.mpr ⟨hT, Nat.div_le_self T f⟩

theorem addTask_tick (s : Scheduler) (f cb p : Nat) :
    (TaskScheduler_AddTask s f cb p).1.tick_per_second = s.tick_per_second := by
  rcases addTask_cases s f cb p with ⟨_, h⟩ | ⟨_, _, h⟩ | ⟨_, k, _, _, _, h⟩ <;> rw [h]

theorem init_tick (s : Scheduler) (T : Nat) : (TaskScheduler_Init s T).tick_per_second = T := rfl

theorem registerAll_tick (regs : List (Nat × Nat × Nat)) : ∀ (s : Scheduler),
    (registerAll s regs).tick_per_second = s.tick_per_second := by
  induction regs with
  | nil =>
    intro s
    rfl
  | cons r rs ih =>
    intro s
    show (registerAll (TaskScheduler_AddTask s r.1 r.2.1 r.2.2).1 rs).tick_per_second = _
    rw [ih, addTask_tick]

/-- What a return value `k ≥ 0` of `TaskScheduler_AddTask` tells. -/
theorem addTask_success (s : Scheduler) (f cb p k : Nat)
    (hret : (TaskScheduler_AddTask s f cb p).2 = (k : Int)) :
    k < TASKSCHEDULER_MAX_TASKS ∧ ¬ rejected s f cb ∧ (s.task_list.rd k).active = 0 ∧
    (∀ m, m < k → (s.task_list.rd m).active ≠ 0) ∧
    TaskScheduler_AddTask s f cb p =
      ({ task_list := s.task_list.wr k (newTask (intervalTicks s.tick_per_second f) cb p),
         tick_per_second := s.tick_per_second }, (k : Int)) := by
  rcases addTask_cases s f cb p with ⟨_, h⟩ | ⟨_, _, h⟩ | ⟨hrej, k', hk', hfree, hmin, h⟩
  · rw [h] at hret
    simp only at hret
    omega
  · rw [h] at hret
    simp only at hret
    omega
  · rw [h] at hret
    simp only at hret
    have e : k' = k := by omega
    subst e
    exact ⟨hk', hrej, hfree, hmin, h⟩

/-! ## Order of dispatch -/

theorem pairwise_indexOf_lt {R : Nat → Nat → Prop} (l : List Nat) (hp : l.Pairwise R)
    (i j : Nat) (hi : i ∈ l) (hj : j ∈ l) (hne : i ≠ j) (hR : ¬ R j i) :
    l.indexOf i < l.indexOf j := by
  have hu : l.indexOf i < l.length := List.indexOf_lt_length.mpr hi
  have hv : l.indexOf j < l.length := List.indexOf_lt_length.mpr hj
  have eu : l[l.indexOf i] = i := List.getElem_indexOf hu
  have ev : l[l.indexOf j] = j := List.getElem_indexOf hv
  rcases Nat.lt_trichotomy (l.indexOf i) (l.indexOf j) with h | h | h
  · exact h
  · exfalso
    apply hne
    rw [← eu, ← ev]
    simp only [h]
  · exfalso
    have := List.pairwise_iff_getElem.mp hp (l.indexOf j) (l.indexOf i) hv hu h
    rw [eu, ev] at this
    exact hR this

theorem getD_indexOf (l : List Nat) (x : Nat) (hx : x ∈ l) : l.getD (l.indexOf x) 0 = x := by
  have hu : l.indexOf x < l.length := List.indexOf_lt_length.mpr hx
  rw [List.getD_eq_getElem _ _ hu]
  exact List.getElem_indexOf hu

theorem indexOf_of_getD (l : List Nat) (hl : l.Nodup) (u x : Nat) (hu : u < l.length)
    (hx : l.getD u 0 = x) : x ∈ l ∧ l.indexOf x = u := by
  rw [List.getD_eq_getElem _ _ hu] at hx
  subst hx
  exact ⟨List.getElem_mem hu, List.indexOf_getElem hl u hu⟩

theorem readySet_increasing (tl : TaskList) : (readySet tl).Pairwise (fun x y => x < y) :=
  List.Pairwise.filter _ (List.pairwise_lt_range _)

/-! ## Fields that `TaskScheduler_Update` leaves alone -/

theorem update_fields (s : Scheduler) (j : Nat) (hj : j < TASKSCHEDULER_MAX_TASKS) :
    ((TaskScheduler_Update s).1.task_list.rd j).active = (s.task_list.rd j).active ∧
    ((TaskScheduler_Update s).1.task_list.rd j).callback = (s.task_list.rd j).callback ∧
    ((TaskScheduler_Update s).1.task_list.rd j).priority = (s.task_list.rd j).priority ∧
    ((TaskScheduler_Update s).1.task_list.rd j).interval_ticks
      = (s.task_list.rd j).interval_ticks := by
  rw [update_rd s j hj]
  split_ifs
  · exact ⟨ticked_active _, ticked_callback _, ticked_priority _, ticked_interval _⟩
  · exact ⟨ticked_active _, ticked_callback _, ticked_priority _, ticked_interval _⟩

theorem updateN_fields (s : Scheduler) (j : Nat) (hj : j < TASKSCHEDULER_MAX_TASKS) (n : Nat) :
    ((updateN n s).task_list.rd j).active = (s.task_list.rd j).active ∧
    ((updateN n s).task_list.rd j).callback = (s.task_list.rd j).callback := by
  induction n with
  | zero => exact ⟨rfl, rfl⟩
  | succ n ih =>
    obtain ⟨h1, h2, _, _⟩ := update_fields (updateN n s) j hj
    exact ⟨h1.trans ih.1, h2.trans ih.2⟩

/-- A call made by `TaskScheduler_Update` goes to an active slot and calls the
function stored in that slot. -/
theorem update_call_origin (s : Scheduler) (c : Call) (hc : c ∈ (TaskScheduler_Update s).2) :
    c.slot < TASKSCHEDULER_MAX_TASKS ∧ (s.task_list.rd c.slot).active ≠ 0 ∧
    decr32 (s.task_list.rd c.slot).counter = 0 ∧
    c.callback = (s.task_list.rd c.slot).callback := by
  have hslot : c.slot ∈ slotsOf (TaskScheduler_Update s).2 := List.mem_map_of_mem Call.slot hc
  obtain ⟨h1, h2⟩ := (mem_update_slots s c.slot).mp hslot
  obtain ⟨h3, h4⟩ := (isReady_iff _ _).mp h2
  refine ⟨h1, h3, h4, ?_⟩
  rw [update_calls, List.mem_map] at hc
  obtain ⟨idx, _, hidx⟩ := hc
  rw [← hidx]

/-- With every slot inactive, `TaskScheduler_Update` does nothing. -/
theorem update_all_inactive (s : Scheduler)
    (h : ∀ j, j < TASKSCHEDULER_MAX_TASKS → (s.task_list.rd j).active = 0) :
    TaskScheduler_Update s = (s, []) := by
  have hcalls : (TaskScheduler_Update s).2 = [] := by
    rw [List.eq_nil_iff_forall_not_mem]
    intro c hc
    obtain ⟨h1, h2, _⟩ := update_call_origin s c hc
    exact h2 (h _ h1)
  have htl : (TaskScheduler_Update s).1.task_list = s.task_list := by
    apply taskList_ext
    intro j hj
    exact (update_slot_inactive s j hj (h j hj)).2
  have hst : (TaskScheduler_Update s).1 = s :=
    scheduler_ext htl (update_tick s)
  exact Prod.ext hst hcalls

theorem updateN_all_inactive (s : Scheduler)
    (h : ∀ j, j < TASKSCHEDULER_MAX_TASKS → (s.task_list.rd j).active = 0) (n : Nat) :
    updateN n s = s := by
  induction n with
  | zero => rfl
  | succ n ih =>
    show (TaskScheduler_Update (updateN n s)).1 = s
    rw [ih, update_all_inactive s h]

theorem nthUpdateCalls_all_inactive (s : Scheduler)
    (h : ∀ j, j < TASKSCHEDULER_MAX_TASKS → (s.task_list.rd j).active = 0) (n : Nat) :
    nthUpdateCalls s n = [] := by
  unfold nthUpdateCalls
  rw [updateN_all_inactive s h, update_all_inactive s h]

theorem init_all_inactive (s : Scheduler) (T : Nat) (j : Nat)
    (hj : j < TASKSCHEDULER_MAX_TASKS) : ((TaskScheduler_Init s T).task_list.rd j).active = 0 := by
  rw [init_task_list_rd s T j hj]

/-! ## The active slots form a prefix of the table -/

theorem init_activeUpTo (s : Scheduler) (T : Nat) : activeUpTo (TaskScheduler_Init s T) 0 := by
  intro k hk
  rw [init_all_inactive s T k hk]
  simp

theorem update_activeUpTo (s : Scheduler) (n : Nat) (h : activeUpTo s n) :
    activeUpTo (TaskScheduler_Update s).1 n := by
  intro k hk
  rw [(update_fields s k hk).1]
  exact h k hk

theorem addTask_rejected (s : Scheduler) (f cb p : Nat) (h : rejected s f cb) :
    TaskScheduler_AddTask s f cb p = (s, -1) := by
  rcases addTask_cases s f cb p with ⟨_, e⟩ | ⟨hn, _⟩ | ⟨hn, _⟩
  · exact e
  · exact absurd h hn
  · exact absurd h hn

theorem addTask_when_full (s : Scheduler) (f cb p : Nat)
    (h : activeUpTo s TASKSCHEDULER_MAX_TASKS) :
    TaskScheduler_AddTask s f cb p = (s, -1) := by
  rcases addTask_cases s f cb p with ⟨_, e⟩ | ⟨_, _, e⟩ | ⟨_, k, hk, hfree, _, _⟩
  · exact e
  · exact e
  · exact absurd hfree ((h k hk).mpr hk)

theorem addTask_fills_next (s : Scheduler) (f cb p n : Nat) (h : activeUpTo s n)
    (hn : n < TASKSCHEDULER_MAX_TASKS) (hv : ¬ rejected s f cb) :
    (TaskScheduler_AddTask s f cb p).2 = (n : Int) ∧
    activeUpTo (TaskScheduler_AddTask s f cb p).1 (n + 1) := by
  have hnfree : (s.task_list.rd n).active = 0 := by
    by_contra hc
    exact Nat.lt_irrefl n ((h n hn).mp hc)
  rcases addTask_cases s f cb p with ⟨hr, _⟩ | ⟨_, hall, _⟩ | ⟨_, k, hk, hfree, hmin, e⟩
  · exact absurd hr hv
  · exact absurd hnfree (hall n hn)
  · have h1 : ¬ k < n := fun hlt => absurd hfree ((h k hk).mpr hlt)
    have h2 : ¬ n < k := fun hlt => absurd hnfree (hmin n hlt)
    have hkn : k = n := by omega
    subst hkn
    rw [e]
    refine ⟨rfl, ?_⟩
    intro j hj
    simp only
    rw [rd_wr]
    by_cases hjk : j = k
    · subst hjk
      simp [hj, newTask]
    · have e2 : (j < k + 1) ↔ (j < k) := by omega
      simp only [hjk, false_and, if_false, e2]
      exact h j hj

theorem not_rejected_of_valid (s : Scheduler) (f cb : Nat) (hf : 0 < f)
    (hfT : f ≤ s.tick_per_second) (hcb : cb ≠ 0) : ¬ rejected s f cb := by
  unfold rejected
  intro h
  rcases h with h | h | h
  · omega
  · omega
  · exact hcb h

theorem runOps_addTask (s : Scheduler) (f cb p : Nat) (ops : List Op) :
    runOps s (Op.addTask f cb p :: ops)
      = ((runOps (TaskScheduler_AddTask s f cb p).1 ops).1,
         Out.ret (TaskScheduler_AddTask s f cb p).2 ::
           (runOps (TaskScheduler_AddTask s f cb p).1 ops).2) := by
  simp only [runOps, stepOp]

theorem runOps_update (s : Scheduler) (ops : List Op) :
    runOps s (Op.update :: ops)
      = ((runOps (TaskScheduler_Update s).1 ops).1,
         Out.calls (TaskScheduler_Update s).2 :: (runOps (TaskScheduler_Update s).1 ops).2) := by
  simp only [runOps, stepOp]

theorem retsOf_ret (r : Int) (os : List Out) : retsOf (Out.ret r :: os) = r :: retsOf os := by
  simp only [retsOf]

theorem retsOf_calls (l : List Call) (os : List Out) : retsOf (Out.calls l :: os) = retsOf os := by
  simp only [retsOf]

/-- Valid registrations (with updates in between) fill the table from slot
`n` upwards, returning `n`, `n + 1`, and so on. -/
theorem runOps_valid (T : Nat) (ops : List Op) : ∀ (s : Scheduler) (n : Nat),
    s.tick_per_second = T → activeUpTo s n → (∀ op ∈ ops, op.validFor T) →
    n + countAdd ops ≤ TASKSCHEDULER_MAX_TASKS →
    activeUpTo (runOps s ops).1 (n + countAdd ops) ∧
    (runOps s ops).1.tick_per_second = T ∧
    retsOf (runOps s ops).2 = List.map Int.ofNat (List.range' n (countAdd ops)) := by
  induction ops with
  | nil =>
    intro s n hT hp _ _
    exact ⟨hp, hT, rfl⟩
  | cons op ops ih =>
    intro s n hT hp hv hle
    have hvrest : ∀ o ∈ ops, o.validFor T := fun o ho => hv o (List.mem_cons_of_mem _ ho)
    cases op with
    | addTask f cb p =>
      have hvop : (Op.addTask f cb p).validFor T := hv _ (List.mem_cons_self _ _)
      obtain ⟨hf, hfT, hcb⟩ := hvop
      have hc : countAdd (Op.addTask f cb p :: ops) = countAdd ops + 1 := rfl
      rw [hc] at hle ⊢
      have hn : n < TASKSCHEDULER_MAX_TASKS := by omega
      obtain ⟨hret, hp'⟩ := addTask_fills_next s f cb p n hp hn
        (not_rejected_of_valid s f cb hf (hT ▸ hfT) hcb)
      obtain ⟨a1, a2, a3⟩ := ih (TaskScheduler_AddTask s f cb p).1 (n + 1)
        ((addTask_tick s f cb p).trans hT) hp' hvrest (by omega)
      have e : n + 1 + countAdd ops = n + (countAdd ops + 1) := by omega
      rw [e] at a1
      rw [runOps_addTask]
      refine ⟨a1, a2, ?_⟩
      simp only
      rw [retsOf_ret, List.range'_succ, List.map_cons, ← a3, hret]
      rfl
    | update =>
      have hc : countAdd (Op.update :: ops) = countAdd ops := rfl
      rw [hc] at hle ⊢
      obtain ⟨a1, a2, a3⟩ := ih (TaskScheduler_Update s).1 n
        ((update_tick s).trans hT) (update_activeUpTo s n hp) hvrest hle
      rw [runOps_update]
      simp only
      rw [retsOf_calls]
      exact ⟨a1, a2, a3⟩

/-- Once all slots are active, every registration fails, whatever its
arguments, and the slots stay active. -/
theorem runOps_full (ops : List Op) : ∀ (s : Scheduler),
    activeUpTo s TASKSCHEDULER_MAX_TASKS →
    activeUpTo (runOps s ops).1 TASKSCHEDULER_MAX_TASKS ∧
    ∀ r ∈ retsOf (runOps s ops).2, r = -1 := by
  induction ops with
  | nil =>
    intro s hp
    exact ⟨hp, fun r hr => absurd hr (List.not_mem_nil r)⟩
  | cons op ops ih =>
    intro s hp
    cases op with
    | addTask f cb p =>
      have e := addTask_when_full s f cb p hp
      obtain ⟨a1, a2⟩ := ih s hp
      rw [runOps_addTask, e]
      simp only
      rw [retsOf_ret]
      refine ⟨a1, ?_⟩
      intro r hr
      simp only [List.mem_cons] at hr
      rcases hr with hr | hr
      · exact hr
      · exact a2 r hr
    | update =>
      obtain ⟨a1, a2⟩ := ih (TaskScheduler_Update s).1 (update_activeUpTo s _ hp)
      rw [runOps_update]
      simp only
      rw [retsOf_calls]
      exact ⟨a1, a2⟩

/-! ## Counters stay between 1 and the interval -/

theorem init_countersInRange (s : Scheduler) (T : Nat) :
    countersInRange (TaskScheduler_Init s T) := by
  intro k hk hact
  exact absurd (init_all_inactive s T k hk) hact

theorem addTask_countersInRange (s : Scheduler) (f cb p : Nat)
    (hT : s.tick_per_second < UINT32_MOD) (h : countersInRange s) :
    countersInRange (TaskScheduler_AddTask s f cb p).1 := by
  rcases addTask_cases s f cb p with ⟨_, e⟩ | ⟨_, _, e⟩ | ⟨hrej, k, hk, _, _, e⟩
  · rw [e]
    exact h
  · rw [e]
    exact h
  · rw [e]
    intro j hj
    simp only
    rw [rd_wr]
    by_cases hjk : j = k
    · subst hjk
      simp only [hj, and_self, if_true]
      intro _
      have hT1 : 1 ≤ s.tick_per_second := by
        unfold rejected at hrej
        omega
      exact ⟨intervalTicks_pos _ _, Nat.le_refl _,
        Nat.lt_of_le_of_lt (intervalTicks_le _ f hT1) hT⟩
    · simp only [hjk, false_and, if_false]
      exact h j hj

theorem update_countersInRange (s : Scheduler) (h : countersInRange s) :
    countersInRange (TaskScheduler_Update s).1 := by
  intro k hk hact
  rw [(update_fields s k hk).1] at hact
  obtain ⟨h1, h2, h3⟩ := h k hk hact
  by_cases hc : (s.task_list.rd k).counter = 1
  · rw [(update_slot_fire s k hk hact hc).2]
    simp only
    exact ⟨Nat.le_trans h1 h2, Nat.le_refl _, h3⟩
  · have hc1 : 1 < (s.task_list.rd k).counter := by omega
    rw [(update_slot_wait s k hk hact hc1 (Nat.lt_of_le_of_lt h2 h3)).2]
    simp only
    exact ⟨by omega, by omega, h3⟩

theorem runOps_countersInRange (ops : List Op) : ∀ (s : Scheduler),
    s.tick_per_second < UINT32_MOD → countersInRange s → countersInRange (runOps s ops).1 := by
  induction ops with
  | nil =>
    intro s _ h
    exact h
  | cons op ops ih =>
    intro s hT h
    cases op with
    | addTask f cb p =>
      rw [runOps_addTask]
      exact ih _ (by rw [addTask_tick]; exact hT) (addTask_countersInRange s f cb p hT h)
    | update =>
      rw [runOps_update]
      exact ih _ (by rw [update_tick]; exact hT) (update_countersInRange s h)

/-! ## A zero tick rate -/

/-- With tick rate `0` and no active slot, no call changes the state: every
registration is rejected and every update calls nothing. -/
theorem runOps_zero_tick (ops : List Op) (s : Scheduler) (hT : s.tick_per_second = 0)
    (hin : ∀ j, j < TASKSCHEDULER_MAX_TASKS → (s.task_list.rd j).active = 0) :
    (runOps s ops).1 = s ∧ (∀ r ∈ retsOf (runOps s ops).2, r = -1) ∧
    (∀ l, Out.calls l ∈ (runOps s ops).2 → l = []) := by
  induction ops with
  | nil =>
    refine ⟨rfl, fun r hr => absurd hr (List.not_mem_nil r), fun l hl => ?_⟩
    exact absurd hl (List.not_mem_nil _)
  | cons op ops ih =>
    obtain ⟨a1, a2, a3⟩ := ih
    cases op with
    | addTask f cb p =>
      have hrej : rejected s f cb := by
        unfold rejected
        rw [hT]
        omega
      rw [runOps_addTask, addTask_rejected s f cb p hrej]
      simp only
      rw [retsOf_ret]
      refine ⟨a1, ?_, ?_⟩
      · intro r hr
        simp only [List.mem_cons] at hr
        rcases hr with hr | hr
        · exact hr
        · exact a2 r hr
      · intro l hl
        simp only [List.mem_cons] at hl
        rcases hl with hl | hl
        · exact absurd hl (by simp)
        · exact a3 l hl
    | update =>
      rw [runOps_update, update_all_inactive s hin]
      simp only
      rw [retsOf_calls]
      refine ⟨a1, a2, ?_⟩
      intro l hl
      simp only [List.mem_cons] at hl
      rcases hl with hl | hl
      · exact Out.calls.inj hl
      · exact a3 l hl

theorem zeroState_inactive (j : Nat) (hj : j < TASKSCHEDULER_MAX_TASKS) :
    (zeroState.task_list.rd j).active = 0 := by
  rw [rd_of_lt _ hj]
  rfl

/-! ## Successful registrations of a run -/

theorem successesOf_fail (os : List Out) : successesOf (Out.ret (-1) :: os) = successesOf os := by
  simp [successesOf, retsOf]

theorem successesOf_ok (n : Nat) (os : List Out) :
    successesOf (Out.ret (n : Int) :: os) = (n : Int) :: successesOf os := by
  have h : ((n : Int) ≠ -1) := by omega
  simp [successesOf, retsOf, h]

theorem successesOf_calls (l : List Call) (os : List Out) :
    successesOf (Out.calls l :: os) = successesOf os := by
  simp [successesOf, retsOf]

/-- From a state whose active slots are the first `m`, a run of calls
returns `m`, `m + 1`, and so on from its successful registrations and ends
with as many more slots active, never more than 10 in all. -/
theorem runOps_activeUpTo (ops : List Op) : ∀ (s : Scheduler) (m : Nat),
    activeUpTo s m → m ≤ TASKSCHEDULER_MAX_TASKS →
    activeUpTo (runOps s ops).1 (m + (successesOf (runOps s ops).2).length) ∧
    successesOf (runOps s ops).2
      = List.map Int.ofNat (List.range' m (successesOf (runOps s ops).2).length) ∧
    m + (successesOf (runOps s ops).2).length ≤ TASKSCHEDULER_MAX_TASKS := by
  induction ops with
  | nil =>
    intro s m hp hm
    exact ⟨hp, rfl, hm⟩
  | cons op ops ih =>
    intro s m hp hm
    cases op with
    | addTask f cb p =>
      rw [runOps_addTask]
      simp only
      by_cases hrej : rejected s f cb
      · rw [addTask_rejected s f cb p hrej]
        simp only
        rw [successesOf_fail]
        exact ih s m hp hm
      · by_cases hfull : m = TASKSCHEDULER_MAX_TASKS
        · rw [addTask_when_full s f cb p (hfull ▸ hp)]
          simp only
          rw [successesOf_fail]
          exact ih s m hp hm
        · have hlt : m < TASKSCHEDULER_MAX_TASKS := Nat.lt_of_le_of_ne hm hfull
          obtain ⟨hret, hp'⟩ := addTask_fills_next s f cb p m hp hlt hrej
          obtain ⟨a1, a2, a3⟩ := ih (TaskScheduler_AddTask s f cb p).1 (m + 1) hp' hlt
          rw [hret, successesOf_ok, List.length_cons, List.range'_succ, List.map_cons, ← a2]
          have e : m + ((successesOf (runOps (TaskScheduler_AddTask s f cb p).1 ops).2).length + 1)
              = m + 1 + (successesOf (runOps (TaskScheduler_AddTask s f cb p).1 ops).2).length := by
            omega
          rw [e]
          exact ⟨a1, rfl, a3⟩
    | update =>
      rw [runOps_update]
      simp only
      rw [successesOf_calls]
      exact ih (TaskScheduler_Update s).1 m (update_activeUpTo s m hp) hm

/-! ## Two runs that differ only in what inactive slots hold -/

/-- Two step functions that agree wherever an invariant on the state and on
the elements still to come holds give the same fold. -/
theorem foldl_agree {σ : Type} (f g : σ → Nat → σ) (Q : σ → List Nat → Prop)
    (hstep : ∀ s x xs, Q s (x :: xs) → g s x = f s x ∧ Q (f s x) xs) :
    ∀ (l : List Nat) (s : σ), Q s l → l.foldl g s = l.foldl f s ∧ Q (l.foldl f s) [] := by
  intro l
  induction l with
  | nil =>
    intro s h
    exact ⟨rfl, h⟩
  | cons x xs ih =>
    intro s h
    obtain ⟨e, h'⟩ := hstep s x xs h
    rw [List.foldl_cons, List.foldl_cons, e]
    exact ih (f s x) h'

theorem getD_mem (b : List Nat) (j : Nat) (hj : j < b.length) : b.getD j 0 ∈ b := by
  rw [List.getD_eq_getElem _ _ hj]
  exact List.getElem_mem hj

/-- A step of the inner sorting loop with both positions inside the array
keeps the length and the entries of the array. -/
theorem sortStep_keeps (tl : TaskList) (i j : Nat) (b : List Nat) (hij : i < j)
    (hj : j < b.length) :
    (sortStep tl i b j).length = b.length ∧ ∀ x, x ∈ sortStep tl i b j ↔ x ∈ b := by
  rw [sortStep_eq]
  split_ifs
  · exact ⟨length_swapIdx b i j, fun x => (perm_swapIdx b i j hij hj).mem_iff⟩
  · exact ⟨rfl, fun x => Iff.rfl⟩

theorem sortStep_congr (tl tl' : TaskList) (i j : Nat) (b : List Nat) (hij : i < j)
    (hj : j < b.length)
    (h : ∀ x ∈ b, (tl'.rd x).priority = (tl.rd x).priority) :
    sortStep tl' i b j = sortStep tl i b j := by
  unfold sortStep
  rw [h _ (getD_mem b j hj), h _ (getD_mem b i (Nat.lt_trans hij hj))]

/-- The inner loop keeps length and entries, and reads the table only at
entries of the array. -/
theorem sortInner_congr (tl tl' : TaskList) (b : List Nat) (i : Nat)
    (h : ∀ x ∈ b, (tl'.rd x).priority = (tl.rd x).priority) :
    sortInner tl' b i = sortInner tl b i ∧ (sortInner tl b i).length = b.length ∧
    ∀ x, x ∈ sortInner tl b i ↔ x ∈ b := by
  have key := foldl_agree (sortStep tl i) (sortStep tl' i)
    (fun c rem => c.length = b.length ∧ (∀ x, x ∈ c ↔ x ∈ b) ∧
      ∀ j ∈ rem, i < j ∧ j < b.length)
    (by
      intro c x xs ⟨hlen, hmem, hrem⟩
      obtain ⟨hix, hxl⟩ := hrem x (List.mem_cons_self _ _)
      have hxc : x < c.length := by omega
      obtain ⟨k1, k2⟩ := sortStep_keeps tl i x c hix hxc
      refine ⟨sortStep_congr tl tl' i x c hix hxc (fun y hy => h y ((hmem y).mp hy)), ?_, ?_, ?_⟩
      · rw [k1, hlen]
      · intro y
        rw [k2 y, hmem y]
      · intro j hj
        exact hrem j (List.mem_cons_of_mem _ hj))
    (List.range' (i + 1) (b.length - (i + 1))) b
    ⟨rfl, fun x => Iff.rfl, by
      intro j hj
      rw [List.mem_range'_1] at hj
      omega⟩
  exact ⟨key.1, key.2.1, key.2.2.1⟩

theorem sortReady_congr (tl tl' : TaskList) (a : List Nat)
    (h : ∀ x ∈ a, (tl'.rd x).priority = (tl.rd x).priority) :
    sortReady tl' a = sortReady tl a ∧ ∀ x, x ∈ sortReady tl a ↔ x ∈ a := by
  have key := foldl_agree (sortInner tl) (sortInner tl')
    (fun c _ => c.length = a.length ∧ (∀ x, x ∈ c ↔ x ∈ a))
    (by
      intro c i _ ⟨hlen, hmem⟩
      obtain ⟨k1, k2, k3⟩ := sortInner_congr tl tl' c i (fun y hy => h y ((hmem y).mp hy))
      refine ⟨k1, ?_, ?_⟩
      · rw [k2, hlen]
      · intro y
        rw [k3 y, hmem y])
    (List.range (a.length - 1)) a ⟨rfl, fun x => Iff.rfl⟩
  exact ⟨key.1, key.2.2⟩

/-- The result of `TaskScheduler_AddTask` once the arguments pass validation
and the first inactive slot is known. -/
theorem addTask_at (s : Scheduler) (f cb p k : Nat) (hrej : ¬ rejected s f cb)
    (hk : k < TASKSCHEDULER_MAX_TASKS) (hfree : (s.task_list.rd k).active = 0)
    (hmin : ∀ m, m < k → (s.task_list.rd m).active ≠ 0) :
    TaskScheduler_AddTask s f cb p =
      ({ task_list := s.task_list.wr k (newTask (intervalTicks s.tick_per_second f) cb p),
         tick_per_second := s.tick_per_second }, (k : Int)) := by
  rcases addTask_cases s f cb p with ⟨hr, _⟩ | ⟨_, hall, _⟩ | ⟨_, k', hk', hfree', hmin', e⟩
  · exact absurd hr hrej
  · exact absurd hfree (hall k hk)
  · have h1 : ¬ k' < k := fun hlt => absurd hfree' (hmin k' hlt)
    have h2 : ¬ k < k' := fun hlt => absurd hfree (hmin' k hlt)
    have hkk : k' = k := by omega
    rw [hkk] at e
    exact e

theorem addTask_all_active (s : Scheduler) (f cb p : Nat)
    (hall : ∀ k, k < TASKSCHEDULER_MAX_TASKS → (s.task_list.rd k).active ≠ 0) :
    TaskScheduler_AddTask s f cb p = (s, -1) := by
  rcases addTask_cases s f cb p with ⟨_, e⟩ | ⟨_, _, e⟩ | ⟨_, k, hk, hfree, _, _⟩
  · exact e
  · exact e
  · exact absurd hfree (hall k hk)

theorem init_sameLive (s1 s2 : Scheduler) (T : Nat) :
    sameLive (TaskScheduler_Init s1 T) (TaskScheduler_Init s2 T) := by
  refine ⟨rfl, ?_⟩
  intro k hk
  have h1 := init_all_inactive s1 T k hk
  have h2 := init_all_inactive s2 T k hk
  exact ⟨h1.trans h2.symm, fun h => absurd h1 h⟩

theorem addTask_sameLive (a b : Scheduler) (f cb p : Nat) (h : sameLive a b) :
    (TaskScheduler_AddTask a f cb p).2 = (TaskScheduler_AddTask b f cb p).2 ∧
    sameLive (TaskScheduler_AddTask a f cb p).1 (TaskScheduler_AddTask b f cb p).1 := by
  obtain ⟨ht, hs⟩ := h
  have hrejab : rejected a f cb ↔ rejected b f cb := by
    unfold rejected
    rw [ht]
  rcases addTask_cases a f cb p with ⟨hr, e⟩ | ⟨_, hall, e⟩ | ⟨hr, k, hk, hfree, hmin, e⟩
  · rw [e, addTask_rejected b f cb p (hrejab.mp hr)]
    exact ⟨rfl, ht, hs⟩
  · have hallb : ∀ k, k < TASKSCHEDULER_MAX_TASKS → (b.task_list.rd k).active ≠ 0 := by
      intro k hk
      rw [← (hs k hk).1]
      exact hall k hk
    rw [e, addTask_all_active b f cb p hallb]
    exact ⟨rfl, ht, hs⟩
  · have hfreeb : (b.task_list.rd k).active = 0 := by
      rw [← (hs k hk).1]
      exact hfree
    have hminb : ∀ m, m < k → (b.task_list.rd m).active ≠ 0 := by
      intro m hm
      rw [← (hs m (Nat.lt_trans hm hk)).1]
      exact hmin m hm
    rw [e, addTask_at b f cb p k (fun hb => hr (hrejab.mpr hb)) hk hfreeb hminb]
    refine ⟨rfl, ht, ?_⟩
    intro j hj
    simp only
    rw [rd_wr, rd_wr, ht]
    by_cases hjk : j = k
    · simp [hjk, hk]
    · simp only [hjk, false_and, if_false]
      exact hs j hj

theorem isReady_sameLive (a b : Scheduler) (h : sameLive a b) (k : Nat)
    (hk : k < TASKSCHEDULER_MAX_TASKS) : isReady a.task_list k = isReady b.task_list k := by
  obtain ⟨h1, h2⟩ := h.2 k hk
  by_cases hact : (a.task_list.rd k).active = 0
  · have hb : (b.task_list.rd k).active = 0 := h1 ▸ hact
    simp [isReady, hact, hb]
  · rw [isReady, isReady, ← h2 hact]

theorem readySet_sameLive (a b : Scheduler) (h : sameLive a b) :
    readySet a.task_list = readySet b.task_list := by
  unfold readySet
  apply List.filter_congr
  intro x hx
  exact isReady_sameLive a b h x (List.mem_range.mp hx)

/-- A ready slot is active, so two states that agree on active slots agree on
it. -/
theorem live_of_mem_readySet (a b : Scheduler) (h : sameLive a b) (x : Nat)
    (hx : x ∈ readySet a.task_list) : a.task_list.rd x = b.task_list.rd x := by
  obtain ⟨hx1, hx2⟩ := (mem_readySet _ _).mp hx
  exact (h.2 x hx1).2 ((isReady_iff _ _).mp hx2).1

theorem update_slots_sameLive (a b : Scheduler) (h : sameLive a b) :
    slotsOf (TaskScheduler_Update a).2 = slotsOf (TaskScheduler_Update b).2 := by
  rw [update_slots, update_slots, ← readySet_sameLive a b h]
  refine (sortReady_congr (readyPass b.task_list).1 (readyPass a.task_list).1
    (readySet a.task_list) ?_).1
  intro x hx
  rw [readyPass_priority, readyPass_priority, live_of_mem_readySet a b h x hx]

theorem update_sameLive (a b : Scheduler) (h : sameLive a b) :
    (TaskScheduler_Update a).2 = (TaskScheduler_Update b).2 ∧
    sameLive (TaskScheduler_Update a).1 (TaskScheduler_Update b).1 := by
  have hslots := update_slots_sameLive a b h
  refine ⟨?_, ?_, ?_⟩
  · rw [update_calls a, update_calls b, ← hslots]
    apply List.map_congr_left
    intro x hx
    have hx' : x ∈ readySet a.task_list := (update_slots_perm a).mem_iff.mp hx
    rw [live_of_mem_readySet a b h x hx']
  · rw [update_tick, update_tick]
    exact h.1
  · intro k hk
    obtain ⟨h1, h2⟩ := h.2 k hk
    refine ⟨?_, ?_⟩
    · rw [(update_fields a k hk).1, (update_fields b k hk).1]
      exact h1
    · intro hact
      rw [(update_fields a k hk).1] at hact
      rw [update_rd a k hk, update_rd b k hk, ← isReady_sameLive a b h k hk, h2 hact]

theorem runOps_sameLive (ops : List Op) : ∀ (a b : Scheduler), sameLive a b →
    (runOps a ops).2 = (runOps b ops).2 := by
  induction ops with
  | nil =>
    intro a b _
    rfl
  | cons op ops ih =>
    intro a b h
    cases op with
    | addTask f cb p =>
      obtain ⟨h1, h2⟩ := addTask_sameLive a b f cb p h
      rw [runOps_addTask, runOps_addTask]
      simp only
      rw [h1, ih _ _ h2]
    | update =>
      obtain ⟨h1, h2⟩ := update_sameLive a b h
      rw [runOps_update, runOps_update]
      simp only
      rw [h1, ih _ _ h2]

/-! ## Array accesses of `TaskScheduler_Update` stay in bounds -/

/-- A checked step function that succeeds and agrees with the unchecked one
wherever an invariant on the state and on the elements still to come holds
gives a checked fold that succeeds with the unchecked result. -/
theorem foldlM_agree {σ : Type} (f : σ → Nat → σ) (g : σ → Nat → Option σ)
    (Q : σ → List Nat → Prop)
    (hstep : ∀ s x xs, Q s (x :: xs) → g s x = some (f s x) ∧ Q (f s x) xs) :
    ∀ (l : List Nat) (s : σ), Q s l →
      l.foldlM g s = some (l.foldl f s) ∧ Q (l.foldl f s) [] := by
  intro l
  induction l with
  | nil =>
    intro s h
    exact ⟨rfl, h⟩
  | cons x xs ih =>
    intro s h
    obtain ⟨e, h'⟩ := hstep s x xs h
    rw [List.foldlM_cons, List.foldl_cons, e]
    exact ih (f s x) h'

theorem readyStep_length (st : TaskList × List Nat) (i : Nat) :
    (readyStep st i).2.length ≤ st.2.length + 1 := by
  by_cases hact : (st.1.rd i).active = 0
  · have e : readyStep st i = st := by
      simp [readyStep, hact]
    rw [e]
    exact Nat.le_succ _
  · by_cases hc : decr32 (st.1.rd i).counter = 0
    · have e : (readyStep st i).2 = st.2 ++ [i] := by
        simp [readyStep, hact, hc]
      rw [e, List.length_append]
      exact Nat.le_refl _
    · have e : (readyStep st i).2 = st.2 := by
        simp [readyStep, hact, hc]
      rw [e]
      exact Nat.le_succ _

theorem readyStepChecked_eq (st : TaskList × List Nat) (i : Nat)
    (hi : i < TASKSCHEDULER_MAX_TASKS) (hlen : st.2.length < TASKSCHEDULER_MAX_TASKS) :
    readyStepChecked st i = some (readyStep st i) := by
  by_cases hact : (st.1.rd i).active = 0
  · simp [readyStepChecked, readyStep, hi, hact]
  · by_cases hc : decr32 (st.1.rd i).counter = 0
    · simp [readyStepChecked, readyStep, hi, hact, hc, hlen]
    · simp [readyStepChecked, readyStep, hi, hact, hc]

theorem readyPassChecked_eq (tl : TaskList) :
    readyPassChecked tl = some (readyPass tl) := by
  have key := foldlM_agree readyStep readyStepChecked
    (fun st rem => st.2.length + rem.length ≤ TASKSCHEDULER_MAX_TASKS ∧
      ∀ x ∈ rem, x < TASKSCHEDULER_MAX_TASKS)
    (by
      intro st x xs ⟨h1, h2⟩
      rw [List.length_cons] at h1
      refine ⟨readyStepChecked_eq st x (h2 x (List.mem_cons_self _ _)) (by omega), ?_, ?_⟩
      · have := readyStep_length st x
        omega
      · intro y hy
        exact h2 y (List.mem_cons_of_mem _ hy))
    (List.range TASKSCHEDULER_MAX_TASKS) (tl, [])
    ⟨by simp, fun x hx => List.mem_range.mp hx⟩
  exact key.1

theorem sortInnerChecked_eq (tl : TaskList) (b : List Nat) (i : Nat)
    (hlen : b.length ≤ TASKSCHEDULER_MAX_TASKS)
    (hb : ∀ x ∈ b, x < TASKSCHEDULER_MAX_TASKS) :
    sortInnerChecked tl b i = some (sortInner tl b i) := by
  have key := foldlM_agree (sortStep tl i) (sortStepChecked tl i)
    (fun c rem => c.length = b.length ∧ (∀ x, x ∈ c ↔ x ∈ b) ∧
      ∀ j ∈ rem, i < j ∧ j < b.length)
    (by
      intro c x xs ⟨hl, hmem, hrem⟩
      obtain ⟨hix, hxl⟩ := hrem x (List.mem_cons_self _ _)
      have hxc : x < c.length := by omega
      have hic : i < c.length := by omega
      obtain ⟨k1, k2⟩ := sortStep_keeps tl i x c hix hxc
      refine ⟨?_, ?_, ?_, ?_⟩
      · unfold sortStepChecked
        rw [if_pos]
        exact ⟨hic, hxc, by omega, hb _ ((hmem _).mp (getD_mem c x hxc)),
          hb _ ((hmem _).mp (getD_mem c i hic))⟩
      · rw [k1, hl]
      · intro y
        rw [k2 y, hmem y]
      · intro j hj
        exact hrem j (List.mem_cons_of_mem _ hj))
    (List.range' (i + 1) (b.length - (i + 1))) b
    ⟨rfl, fun x => Iff.rfl, by
      intro j hj
      rw [List.mem_range'_1] at hj
      omega⟩
  exact key.1

theorem sortReadyChecked_eq (tl : TaskList) (a : List Nat)
    (hlen : a.length ≤ TASKSCHEDULER_MAX_TASKS)
    (ha : ∀ x ∈ a, x < TASKSCHEDULER_MAX_TASKS) :
    sortReadyChecked tl a = some (sortReady tl a) := by
  have key := foldlM_agree (sortInner tl) (sortInnerChecked tl)
    (fun c _ => c.length = a.length ∧ (∀ x, x ∈ c ↔ x ∈ a))
    (by
      intro c i _ ⟨hl, hmem⟩
      obtain ⟨_, k2, k3⟩ := sortInner_congr tl tl c i (fun _ _ => rfl)
      refine ⟨sortInnerChecked_eq tl c i (by omega) (fun y hy => ha y ((hmem y).mp hy)), ?_, ?_⟩
      · rw [k2, hl]
      · intro y
        rw [k3 y, hmem y])
    (List.range (a.length - 1)) a ⟨rfl, fun x => Iff.rfl⟩
  exact key.1

theorem dispatchPassChecked_eq (tl : TaskList) (l : List Nat)
    (hlen : l.length ≤ TASKSCHEDULER_MAX_TASKS)
    (hl : ∀ x ∈ l, x < TASKSCHEDULER_MAX_TASKS) :
    dispatchPassChecked tl l = some (dispatchPass tl l) := by
  have key := foldlM_agree dispatchStep dispatchStepChecked
    (fun _ rem => ∀ x ∈ rem, x < TASKSCHEDULER_MAX_TASKS)
    (by
      intro st x xs h
      refine ⟨?_, fun y hy => h y (List.mem_cons_of_mem _ hy)⟩
      unfold dispatchStepChecked
      rw [if_pos (h x (List.mem_cons_self _ _))])
    l (tl, []) hl
  unfold dispatchPassChecked dispatchPass
  rw [if_pos hlen]
  exact key.1

theorem readyPass_bounds (tl : TaskList) :
    (readyPass tl).2.length ≤ TASKSCHEDULER_MAX_TASKS ∧
    ∀ x ∈ (readyPass tl).2, x < TASKSCHEDULER_MAX_TASKS := by
  rw [(readyPass_spec tl).1]
  refine ⟨?_, fun x hx => ((mem_readySet tl x).mp hx).1⟩
  unfold readySet
  exact Nat.le_trans (List.length_filter_le _ _) (Nat.le_of_eq (List.length_range _))

end TaskScheduler

/-! ## The claims -/

namespace TaskScheduler

/-- C1 (periodicity). Let the tick rate `T` fit a `uint32_t`, and let the state
be the one reached by `TaskScheduler_Init(T)` followed by any registrations.
If `TaskScheduler_AddTask(f, cb, p)` with `0 < f ≤ T` and `cb` non-null returns
slot `k`, then, counting the following calls of `TaskScheduler_Update` from 1,
the `n`-th call dispatches slot `k` exactly once when `n` is a multiple of
`max 1 (T / f)` and not at all otherwise, and the function called for slot `k`
is `cb`. -/
theorem C1_periodicity (s0 : Scheduler) (T : Nat) (hT : T < UINT32_MOD)
    (regs : List (Nat × Nat × Nat)) (f cb p k : Nat)
    (hf : 0 < f) (hfT : f ≤ T) (hcb : cb ≠ 0)
    (hret : (TaskScheduler_AddTask (registerAll (TaskScheduler_Init s0 T) regs) f cb p).2
      = (k : Int))
    (n : Nat) (hn : 1 ≤ n) :
    (slotsOf (nthUpdateCalls
        (TaskScheduler_AddTask (registerAll (TaskScheduler_Init s0 T) regs) f cb p).1 n)).count k
      = (if max 1 (T / f) ∣ n then 1 else 0) ∧
    ∀ c ∈ nthUpdateCalls
        (TaskScheduler_AddTask (registerAll (TaskScheduler_Init s0 T) regs) f cb p).1 n,
      c.slot = k → c.callback = cb := by
  have htick : (registerAll (TaskScheduler_Init s0 T) regs).tick_per_second = T := by
    rw [registerAll_tick, init_tick]
  obtain ⟨hk, _, _, _, hres⟩ := addTask_success _ f cb p k hret
  rw [htick] at hres
  have hT1 : 1 ≤ T := Nat.le_trans hf hfT
  have h0 : (TaskScheduler_AddTask (registerAll (TaskScheduler_Init s0 T) regs) f cb p).1.task_list.rd k
      = newTask (intervalTicks T f) cb p := by
    rw [hres]
    exact rd_wr_same _ hk _
  obtain ⟨hmem, hcbk⟩ := periodic_dispatch _ k (intervalTicks T f) cb p hk
    (intervalTicks_pos T f) (Nat.lt_of_le_of_lt (intervalTicks_le T f hT1) hT) h0 n hn
  rw [intervalTicks_eq_max] at hmem
  refine ⟨?_, ?_⟩
  · unfold nthUpdateCalls at hmem ⊢
    rw [count_update_slots]
    simp only [hmem]
  · intro c hc hslot
    unfold nthUpdateCalls at hc
    rw [update_calls, List.mem_map] at hc
    obtain ⟨idx, _, hidx⟩ := hc
    rw [← hidx] at hslot ⊢
    simp only at hslot ⊢
    rw [hslot]
    exact hcbk

/-- Witness for C1: after `Init(1000)` and `AddTask(10, cb, 5)` (returning
slot 0), the 100th call of `TaskScheduler_Update` dispatches slot 0 once. -/
theorem C1_periodicity_witness :
    (slotsOf (nthUpdateCalls
        (TaskScheduler_AddTask (registerAll (TaskScheduler_Init zeroState 1000) []) 10 7 5).1
        100)).count 0 = 1 :=
  (C1_periodicity zeroState 1000 (by decide) [] 10 7 5 0 (by decide) (by decide) (by decide)
    (by decide) 100 (by decide)).1.trans (by decide)

/-- C2 (priority order). In every call of `TaskScheduler_Update` the slots are
dispatched in non-decreasing order of their priority field; in particular, of
two ready slots the one with the strictly smaller priority value (such as 0
against 1) is dispatched first. -/
theorem C2_priority_order (s : Scheduler) :
    (slotsOf (TaskScheduler_Update s).2).Pairwise
      (fun x y => (s.task_list.rd x).priority ≤ (s.task_list.rd y).priority) ∧
    ∀ i j, i < TASKSCHEDULER_MAX_TASKS → j < TASKSCHEDULER_MAX_TASKS →
      isReady s.task_list i = true → isReady s.task_list j = true →
      (s.task_list.rd i).priority < (s.task_list.rd j).priority →
      dispatchedBefore (TaskScheduler_Update s).2 i j := by
  refine ⟨update_slots_sorted s, ?_⟩
  intro i j hi hj hri hrj hlt
  have mi := (mem_update_slots s i).mpr ⟨hi, hri⟩
  have mj := (mem_update_slots s j).mpr ⟨hj, hrj⟩
  refine ⟨mi, mj, pairwise_indexOf_lt _ (update_slots_sorted s) i j mi mj ?_ ?_⟩
  · intro h
    rw [h] at hlt
    exact Nat.lt_irrefl _ hlt
  · exact Nat.not_le_of_lt hlt

/-- Witness for C2: with slot 0 at priority 1 and slot 1 at priority 0, both
ready, slot 1 is dispatched before slot 0. -/
theorem C2_priority_order_witness :
    dispatchedBefore
      (TaskScheduler_Update
        (registerAll (TaskScheduler_Init zeroState 1) [(1, 11, 1), (1, 12, 0)])).2 1 0 :=
  (C2_priority_order
    (registerAll (TaskScheduler_Init zeroState 1) [(1, 11, 1), (1, 12, 0)])).2 1 0
    (by decide) (by decide) (by decide) (by decide) (by decide)

/-- C3, as stated, fails. After `Init(1)` and the registrations
`AddTask(1, 11, 1)`, `AddTask(1, 12, 1)`, `AddTask(1, 13, 0)` the slots 0, 1, 2
are all ready at the next `TaskScheduler_Update`; slots 0 and 1 share priority
1, and the call dispatches 2, 1, 0: slot 1 runs before slot 0. -/
theorem C3_stable_tie_break_counterexample :
    isReady (registerAll (TaskScheduler_Init zeroState 1)
        [(1, 11, 1), (1, 12, 1), (1, 13, 0)]).task_list 0 = true ∧
    isReady (registerAll (TaskScheduler_Init zeroState 1)
        [(1, 11, 1), (1, 12, 1), (1, 13, 0)]).task_list 1 = true ∧
    ((registerAll (TaskScheduler_Init zeroState 1)
        [(1, 11, 1), (1, 12, 1), (1, 13, 0)]).task_list.rd 0).priority
      = ((registerAll (TaskScheduler_Init zeroState 1)
        [(1, 11, 1), (1, 12, 1), (1, 13, 0)]).task_list.rd 1).priority ∧
    slotsOf (TaskScheduler_Update (registerAll (TaskScheduler_Init zeroState 1)
        [(1, 11, 1), (1, 12, 1), (1, 13, 0)])).2 = [2, 1, 0] ∧
    ¬ dispatchedBefore (TaskScheduler_Update (registerAll (TaskScheduler_Init zeroState 1)
        [(1, 11, 1), (1, 12, 1), (1, 13, 0)])).2 0 1 := by
  decide

/-- C3, amended. In every call of `TaskScheduler_Update`, if two slots `i < j`
are both ready and have equal priority, and no ready slot at a table position
after `j` has a strictly smaller priority value than theirs, then slot `i` is
dispatched before slot `j`. -/
theorem C3_stable_tie_break_amended (s : Scheduler) (i j : Nat) (hij : i < j)
    (hj : j < TASKSCHEDULER_MAX_TASKS)
    (hri : isReady s.task_list i = true) (hrj : isReady s.task_list j = true)
    (hp : (s.task_list.rd i).priority = (s.task_list.rd j).priority)
    (hno : ∀ m, j < m → m < TASKSCHEDULER_MAX_TASKS → isReady s.task_list m = true →
      (s.task_list.rd i).priority ≤ (s.task_list.rd m).priority) :
    dispatchedBefore (TaskScheduler_Update s).2 i j := by
  have hi : i < TASKSCHEDULER_MAX_TASKS := Nat.lt_trans hij hj
  have mi : i ∈ readySet s.task_list := (mem_readySet _ _).mpr ⟨hi, hri⟩
  have mj : j ∈ readySet s.task_list := (mem_readySet _ _).mpr ⟨hj, hrj⟩
  have hinc := readySet_increasing s.task_list
  have huv : (readySet s.task_list).indexOf i < (readySet s.task_list).indexOf j :=
    pairwise_indexOf_lt _ hinc i j mi mj (Nat.ne_of_lt hij) (Nat.lt_asymm hij)
  have hv : (readySet s.task_list).indexOf j < (readySet s.task_list).length :=
    List.indexOf_lt_length.mpr mj
  have htail : ∀ m, (readySet s.task_list).indexOf j < m → m < (readySet s.task_list).length →
      (s.task_list.rd i).priority ≤ keyAt (readyPass s.task_list).1 (readySet s.task_list) m := by
    intro m h1 h2
    unfold keyAt
    rw [readyPass_priority, List.getD_eq_getElem _ _ h2]
    have hgt := List.pairwise_iff_getElem.mp hinc _ m hv h2 h1
    rw [List.getElem_indexOf hv] at hgt
    have hm := (mem_readySet s.task_list _).mp (List.getElem_mem h2)
    exact hno _ hgt hm.1 hm.2
  obtain ⟨u', v', h1, h2, h3, h4⟩ :=
    sortReady_keeps_order (readyPass s.task_list).1 (readySet s.task_list) i j
      (s.task_list.rd i).priority _ _ (readyPass_priority _ _)
      ((readyPass_priority _ _).trans hp.symm) huv hv
      (getD_indexOf _ i mi) (getD_indexOf _ j mj) htail
  rw [← update_slots] at h2 h3 h4
  have hnd := update_slots_nodup s
  obtain ⟨mi', ei⟩ := indexOf_of_getD _ hnd u' i (Nat.lt_trans h1 h2) h3
  obtain ⟨mj', ej⟩ := indexOf_of_getD _ hnd v' j h2 h4
  refine ⟨mi', mj', ?_⟩
  rw [ei, ej]
  exact h1

/-- Witness for C3 amended: slots 0 and 2 tie at priority 1 while slot 1, at
priority 0, lies between them; slot 0 is dispatched before slot 2. -/
theorem C3_stable_tie_break_amended_witness :
    dispatchedBefore
      (TaskScheduler_Update
        (registerAll (TaskScheduler_Init zeroState 1)
          [(1, 11, 1), (1, 12, 0), (1, 13, 1)])).2 0 2 :=
  C3_stable_tie_break_amended
    (registerAll (TaskScheduler_Init zeroState 1) [(1, 11, 1), (1, 12, 0), (1, 13, 1)]) 0 2
    (by decide) (by decide) (by decide) (by decide) (by decide)
    (by
      intro m h1 h2 hr
      have h3 : m < 10 := h2
      have hm : m = 3 ∨ m = 4 ∨ m = 5 ∨ m = 6 ∨ m = 7 ∨ m = 8 ∨ m = 9 := by omega
      rcases hm with h | h | h | h | h | h | h <;> subst h <;> exact absurd hr (by decide))

/-- C4 (failure conditions). `TaskScheduler_AddTask(f, cb, p)` returns `-1`
exactly when `f == 0`, or `f` exceeds the tick rate, or `cb` is null, or every
one of the 10 slots is active; whenever it does not return `-1` it returns an
index `i` with `0 ≤ i < 10`. -/
theorem C4_failure_conditions (s : Scheduler) (f cb p : Nat) :
    ((TaskScheduler_AddTask s f cb p).2 = -1 ↔
      (f = 0 ∨ f > s.tick_per_second ∨ cb = 0 ∨
        ∀ k : Fin TASKSCHEDULER_MAX_TASKS, (s.task_list k).active ≠ 0)) ∧
    ((TaskScheduler_AddTask s f cb p).2 = -1 ∨
      (0 ≤ (TaskScheduler_AddTask s f cb p).2 ∧
        (TaskScheduler_AddTask s f cb p).2 < (TASKSCHEDULER_MAX_TASKS : Int))) := by
  rcases addTask_cases s f cb p with ⟨hrej, h⟩ | ⟨_, hall, h⟩ | ⟨hrej, k, hk, hfree, _, h⟩
  · rw [h]
    refine ⟨⟨fun _ => ?_, fun _ => rfl⟩, Or.inl rfl⟩
    rcases hrej with h1 | h1 | h1
    · exact Or.inl h1
    · exact Or.inr (Or.inl h1)
    · exact Or.inr (Or.inr (Or.inl h1))
  · rw [h]
    refine ⟨⟨fun _ => ?_, fun _ => rfl⟩, Or.inl rfl⟩
    refine Or.inr (Or.inr (Or.inr ?_))
    intro k
    have := hall k.val k.isLt
    rwa [rd_val] at this
  · rw [h]
    refine ⟨⟨fun hneg => ?_, fun hcond => ?_⟩, Or.inr ⟨?_, ?_⟩⟩
    · simp only at hneg
      omega
    · exfalso
      rcases hcond with h1 | h1 | h1 | h1
      · exact hrej (Or.inl h1)
      · exact hrej (Or.inr (Or.inl h1))
      · exact hrej (Or.inr (Or.inr h1))
      · rw [rd_of_lt _ hk] at hfree
        exact h1 ⟨k, hk⟩ hfree
    · simp only
      omega
    · simp only
      have hk' : k < 10 := hk
      omega

/-- C5, as stated, fails in its last clause. After `Init(1)` and ten
registrations `AddTask(1, 7, 0)`, which fill the slots 0 to 9, an eleventh
`AddTask(1, 7, 0)` returns `-1` and leaves the state unchanged, and yet the
next `TaskScheduler_Update` calls the function `7` that the rejected call
named, for slot 0 and for every other slot. -/
theorem C5_failed_registration_counterexample :
    (TaskScheduler_AddTask
      (registerAll (TaskScheduler_Init zeroState 1)
        [(1, 7, 0), (1, 7, 0), (1, 7, 0), (1, 7, 0), (1, 7, 0),
         (1, 7, 0), (1, 7, 0), (1, 7, 0), (1, 7, 0), (1, 7, 0)]) 1 7 0).2 = -1 ∧
    ({ slot := 0, callback := 7 } : Call) ∈
      nthUpdateCalls
        (TaskScheduler_AddTask
          (registerAll (TaskScheduler_Init zeroState 1)
            [(1, 7, 0), (1, 7, 0), (1, 7, 0), (1, 7, 0), (1, 7, 0),
             (1, 7, 0), (1, 7, 0), (1, 7, 0), (1, 7, 0), (1, 7, 0)]) 1 7 0).1 1 ∧
    ¬ (∀ c ∈ nthUpdateCalls
        (TaskScheduler_AddTask
          (registerAll (TaskScheduler_Init zeroState 1)
            [(1, 7, 0), (1, 7, 0), (1, 7, 0), (1, 7, 0), (1, 7, 0),
             (1, 7, 0), (1, 7, 0), (1, 7, 0), (1, 7, 0), (1, 7, 0)]) 1 7 0).1 1,
        c.callback ≠ 7) := by
  decide

/-- C5, amended (atomicity of a failed registration). Whenever
`TaskScheduler_AddTask` returns `-1`, the state after the call is the state
before it; hence every later `TaskScheduler_Update` makes exactly the calls it
would have made without the registration attempt, and, provided no active slot
held `cb` before the call, no later `TaskScheduler_Update` ever calls `cb`. -/
theorem C5_failed_registration_atomic_amended (s : Scheduler) (f cb p : Nat)
    (hfail : (TaskScheduler_AddTask s f cb p).2 = -1) :
    (TaskScheduler_AddTask s f cb p).1 = s ∧
    (∀ n, nthUpdateCalls (TaskScheduler_AddTask s f cb p).1 n = nthUpdateCalls s n) ∧
    ((∀ k : Fin TASKSCHEDULER_MAX_TASKS,
        (s.task_list k).active ≠ 0 → (s.task_list k).callback ≠ cb) →
      ∀ n, ∀ c ∈ nthUpdateCalls (TaskScheduler_AddTask s f cb p).1 n, c.callback ≠ cb) := by
  have hst : (TaskScheduler_AddTask s f cb p).1 = s := by
    rcases addTask_cases s f cb p with ⟨_, h⟩ | ⟨_, _, h⟩ | ⟨_, k, _, _, _, h⟩
    · rw [h]
    · rw [h]
    · rw [h] at hfail
      simp only at hfail
      omega
  refine ⟨hst, fun n => by rw [hst], ?_⟩
  intro hcb n c hc
  rw [hst] at hc
  unfold nthUpdateCalls at hc
  obtain ⟨h1, h2, _, h4⟩ := update_call_origin _ c hc
  obtain ⟨ha, hb⟩ := updateN_fields s c.slot h1 (n - 1)
  rw [ha] at h2
  rw [hb] at h4
  rw [h4, rd_of_lt _ h1]
  rw [rd_of_lt _ h1] at h2
  exact hcb ⟨c.slot, h1⟩ h2

/-- Witness for C5 amended. After `Init(100)`, `AddTask(200, 7, 0)` returns
`-1`, leaves the state as `Init` made it, and no later `TaskScheduler_Update`
calls anything. With slot 0 holding the function `9`, the same rejected call
leaves the state unchanged and no later `TaskScheduler_Update` calls `7`. -/
theorem C5_failed_registration_atomic_amended_witness :
    ((TaskScheduler_AddTask (TaskScheduler_Init zeroState 100) 200 7 0).2 = -1 ∧
      (TaskScheduler_AddTask (TaskScheduler_Init zeroState 100) 200 7 0).1
        = TaskScheduler_Init zeroState 100 ∧
      (∀ n, nthUpdateCalls
          (TaskScheduler_AddTask (TaskScheduler_Init zeroState 100) 200 7 0).1 n = [])) ∧
    ((TaskScheduler_AddTask
        (registerAll (TaskScheduler_Init zeroState 100) [(50, 9, 0)]) 200 7 0).2 = -1 ∧
      (TaskScheduler_AddTask
        (registerAll (TaskScheduler_Init zeroState 100) [(50, 9, 0)]) 200 7 0).1
        = registerAll (TaskScheduler_Init zeroState 100) [(50, 9, 0)] ∧
      (∀ n, ∀ c ∈ nthUpdateCalls
          (TaskScheduler_AddTask
            (registerAll (TaskScheduler_Init zeroState 100) [(50, 9, 0)]) 200 7 0).1 n,
        c.callback ≠ 7)) :=
  ⟨⟨by decide,
    (C5_failed_registration_atomic_amended (TaskScheduler_Init zeroState 100) 200 7 0
      (by decide)).1,
    fun n => ((C5_failed_registration_atomic_amended (TaskScheduler_Init zeroState 100) 200 7 0
      (by decide)).2.1 n).trans
        (nthUpdateCalls_all_inactive _ (init_all_inactive zeroState 100) n)⟩,
   ⟨by decide,
    (C5_failed_registration_atomic_amended
      (registerAll (TaskScheduler_Init zeroState 100) [(50, 9, 0)]) 200 7 0 (by decide)).1,
    (C5_failed_registration_atomic_amended
      (registerAll (TaskScheduler_Init zeroState 100) [(50, 9, 0)]) 200 7 0 (by decide)).2.2
      (by decide)⟩⟩

/-- C6 (capacity). After `TaskScheduler_Init(T)` with `T ≥ 1`, in any run of
calls made of `TaskScheduler_Update` calls and exactly 10
`TaskScheduler_AddTask` calls with valid arguments (`0 < f ≤ T`, non-null
callback, any priority), the registrations all succeed, returning the slots
0 to 9 in turn; in any run of calls after that, every `TaskScheduler_AddTask`
returns `-1`, whatever its arguments. -/
theorem C6_capacity (s0 : Scheduler) (T : Nat) (hT : 1 ≤ T) (ops : List Op)
    (hvalid : ∀ op ∈ ops, op.validFor T) (hcount : countAdd ops = TASKSCHEDULER_MAX_TASKS) :
    retsOf (runOps (TaskScheduler_Init s0 T) ops).2 = [0, 1, 2, 3, 4, 5, 6, 7, 8, 9] ∧
    ∀ (ops' : List Op),
      ∀ r ∈ retsOf (runOps (runOps (TaskScheduler_Init s0 T) ops).1 ops').2, r = -1 := by
  obtain ⟨h1, _, h3⟩ := runOps_valid T ops (TaskScheduler_Init s0 T) 0 rfl
    (init_activeUpTo s0 T) hvalid (by omega)
  rw [hcount] at h1 h3
  refine ⟨h3.trans (by decide), ?_⟩
  intro ops'
  exact (runOps_full ops' _ (by simpa using h1)).2

/-- Witness for C6: ten registrations at tick rate 1, with an update after the
third. -/
theorem C6_capacity_witness :
    retsOf (runOps (TaskScheduler_Init zeroState 1)
      [Op.addTask 1 7 0, Op.addTask 1 7 1, Op.addTask 1 8 0, Op.update, Op.addTask 1 7 0,
       Op.addTask 1 7 0, Op.addTask 1 7 0, Op.addTask 1 7 0, Op.addTask 1 7 0,
       Op.addTask 1 7 0, Op.addTask 1 7 0]).2 = [0, 1, 2, 3, 4, 5, 6, 7, 8, 9] ∧
    ∀ (ops' : List Op),
      ∀ r ∈ retsOf (runOps (runOps (TaskScheduler_Init zeroState 1)
        [Op.addTask 1 7 0, Op.addTask 1 7 1, Op.addTask 1 8 0, Op.update, Op.addTask 1 7 0,
         Op.addTask 1 7 0, Op.addTask 1 7 0, Op.addTask 1 7 0, Op.addTask 1 7 0,
         Op.addTask 1 7 0, Op.addTask 1 7 0]).1 ops').2, r = -1 :=
  C6_capacity zeroState 1 (by decide)
    [Op.addTask 1 7 0, Op.addTask 1 7 1, Op.addTask 1 8 0, Op.update, Op.addTask 1 7 0,
     Op.addTask 1 7 0, Op.addTask 1 7 0, Op.addTask 1 7 0, Op.addTask 1 7 0,
     Op.addTask 1 7 0, Op.addTask 1 7 0]
    (by decide) (by decide)

/-- C7 (successful registration). In a state with tick rate `T` and at least
one inactive slot, `TaskScheduler_AddTask(f, cb, p)` with `0 < f ≤ T` and `cb`
non-null returns the smallest index `i` whose slot was inactive, and afterwards
slot `i` has `active = 1`, `callback = cb`, `priority = p`,
`interval_ticks = max 1 (T / f)` and `counter = interval_ticks`. -/
theorem C7_registration_postcondition (s : Scheduler) (f cb p : Nat)
    (hfree : ∃ k : Fin TASKSCHEDULER_MAX_TASKS, (s.task_list k).active = 0)
    (hf : 0 < f) (hfT : f ≤ s.tick_per_second) (hcb : cb ≠ 0) :
    ∃ i : Fin TASKSCHEDULER_MAX_TASKS,
      (TaskScheduler_AddTask s f cb p).2 = (i.val : Int) ∧
      (s.task_list i).active = 0 ∧
      (∀ m : Fin TASKSCHEDULER_MAX_TASKS, m < i → (s.task_list m).active ≠ 0) ∧
      (TaskScheduler_AddTask s f cb p).1.task_list i =
        { interval_ticks := max 1 (s.tick_per_second / f)
          counter := max 1 (s.tick_per_second / f)
          callback := cb
          active := 1
          priority := p } := by
  have hnr : ¬ rejected s f cb := by
    unfold rejected
    intro h
    rcases h with h | h | h
    · omega
    · omega
    · exact hcb h
  rcases addTask_cases s f cb p with ⟨hrej, _⟩ | ⟨_, hall, _⟩ | ⟨_, k, hk, hk0, hmin, h⟩
  · exact absurd hrej hnr
  · obtain ⟨k, hk⟩ := hfree
    have := hall k.val k.isLt
    rw [rd_val] at this
    exact absurd hk this
  · refine ⟨⟨k, hk⟩, ?_, ?_, ?_, ?_⟩
    · rw [h]
    · rw [rd_of_lt _ hk] at hk0
      exact hk0
    · intro m hm
      have := hmin m.val hm
      rwa [rd_val] at this
    · have hw := rd_wr_same s.task_list hk (newTask (intervalTicks s.tick_per_second f) cb p)
      rw [rd_of_lt _ hk] at hw
      rw [h]
      simp only
      rw [hw, intervalTicks_eq_max]
      rfl

/-- Witness for C7: after `Init(1000)` and one registration, `AddTask(10, 7, 5)`
takes slot 1 with interval and counter 100. -/
theorem C7_registration_postcondition_witness :
    ∃ i : Fin TASKSCHEDULER_MAX_TASKS,
      (TaskScheduler_AddTask
        (registerAll (TaskScheduler_Init zeroState 1000) [(4, 9, 2)]) 10 7 5).2 = (i.val : Int) ∧
      ((registerAll (TaskScheduler_Init zeroState 1000) [(4, 9, 2)]).task_list i).active = 0 ∧
      (∀ m : Fin TASKSCHEDULER_MAX_TASKS, m < i →
        ((registerAll (TaskScheduler_Init zeroState 1000) [(4, 9, 2)]).task_list m).active ≠ 0) ∧
      (TaskScheduler_AddTask
        (registerAll (TaskScheduler_Init zeroState 1000) [(4, 9, 2)]) 10 7 5).1.task_list i =
        { interval_ticks := max 1
            ((registerAll (TaskScheduler_Init zeroState 1000) [(4, 9, 2)]).tick_per_second / 10)
          counter := max 1
            ((registerAll (TaskScheduler_Init zeroState 1000) [(4, 9, 2)]).tick_per_second / 10)
          callback := 7
          active := 1
          priority := 5 } :=
  C7_registration_postcondition
    (registerAll (TaskScheduler_Init zeroState 1000) [(4, 9, 2)]) 10 7 5
    ⟨⟨1, by decide⟩, by decide⟩ (by decide) (by decide) (by decide)

/-- C8 (initialisation). After `TaskScheduler_Init(T)` the tick rate is `T`
and all 10 slots are inactive; a following `TaskScheduler_Update` calls
nothing and leaves the state unchanged, and so does every further one:
whatever was registered before the `Init` is never dispatched again. -/
theorem C8_initialization (s : Scheduler) (T : Nat) :
    (TaskScheduler_Init s T).tick_per_second = T ∧
    (∀ k : Fin TASKSCHEDULER_MAX_TASKS, ((TaskScheduler_Init s T).task_list k).active = 0) ∧
    TaskScheduler_Update (TaskScheduler_Init s T) = (TaskScheduler_Init s T, []) ∧
    (∀ n, updateN n (TaskScheduler_Init s T) = TaskScheduler_Init s T) ∧
    (∀ n, nthUpdateCalls (TaskScheduler_Init s T) n = []) := by
  have hin := init_all_inactive s T
  refine ⟨rfl, ?_, update_all_inactive _ hin, updateN_all_inactive _ hin,
    nthUpdateCalls_all_inactive _ hin⟩
  intro k
  have := hin k.val k.isLt
  rwa [rd_val] at this

/-- C9 (the ready set is dispatched exactly once each). In every call of
`TaskScheduler_Update` the sequence of dispatched slots has no duplicates, is
a permutation of the ready slots, and contains slot `j` exactly when `j` is one
of the 10 slots, is active, and its counter decremented by one (as a
`uint32_t`) is `0`; inactive slots are never dispatched. -/
theorem C9_ready_set_dispatched_once (s : Scheduler) :
    (slotsOf (TaskScheduler_Update s).2).Nodup ∧
    (slotsOf (TaskScheduler_Update s).2).Perm (readySet s.task_list) ∧
    (∀ j, j ∈ slotsOf (TaskScheduler_Update s).2 ↔
      j < TASKSCHEDULER_MAX_TASKS ∧ (s.task_list.rd j).active ≠ 0 ∧
        decr32 (s.task_list.rd j).counter = 0) ∧
    (∀ j, (s.task_list.rd j).active = 0 → j ∉ slotsOf (TaskScheduler_Update s).2) := by
  have hmem : ∀ j, j ∈ slotsOf (TaskScheduler_Update s).2 ↔
      j < TASKSCHEDULER_MAX_TASKS ∧ (s.task_list.rd j).active ≠ 0 ∧
        decr32 (s.task_list.rd j).counter = 0 := by
    intro j
    rw [mem_update_slots, isReady_iff]
  refine ⟨update_slots_nodup s, update_slots_perm s, hmem, ?_⟩
  intro j hj hin
  exact ((hmem j).mp hin).2.1 hj

/-- C10 (counter invariant). Let the tick rate `T` fit a `uint32_t`. In every
state reached from `TaskScheduler_Init(T)` by any sequence of
`TaskScheduler_AddTask` and `TaskScheduler_Update` calls, every active slot has
`interval_ticks ≥ 1` and `1 ≤ counter ≤ interval_ticks`; consequently the
`uint32_t` decrement of its counter in `TaskScheduler_Update` does not wrap:
the decremented value plus one is the counter again. -/
theorem C10_counter_invariant (s0 : Scheduler) (T : Nat) (hT : T < UINT32_MOD)
    (ops : List Op) (k : Fin TASKSCHEDULER_MAX_TASKS)
    (hact : ((runOps (TaskScheduler_Init s0 T) ops).1.task_list k).active ≠ 0) :
    1 ≤ ((runOps (TaskScheduler_Init s0 T) ops).1.task_list k).interval_ticks ∧
    1 ≤ ((runOps (TaskScheduler_Init s0 T) ops).1.task_list k).counter ∧
    ((runOps (TaskScheduler_Init s0 T) ops).1.task_list k).counter
      ≤ ((runOps (TaskScheduler_Init s0 T) ops).1.task_list k).interval_ticks ∧
    decr32 ((runOps (TaskScheduler_Init s0 T) ops).1.task_list k).counter + 1
      = ((runOps (TaskScheduler_Init s0 T) ops).1.task_list k).counter := by
  have hinv := runOps_countersInRange ops (TaskScheduler_Init s0 T) hT
    (init_countersInRange s0 T) k.val k.isLt
  rw [rd_val] at hinv
  obtain ⟨h1, h2, h3⟩ := hinv hact
  refine ⟨Nat.le_trans h1 h2, h1, h2, ?_⟩
  rw [decr32_of_pos _ h1 (Nat.lt_of_le_of_lt h2 h3)]
  omega

/-- Witness for C10: slot 0 after `Init(1000)`, `AddTask(10, 7, 5)` and one
`TaskScheduler_Update` has interval 100 and counter 99. -/
theorem C10_counter_invariant_witness :
    ((runOps (TaskScheduler_Init zeroState 1000) [Op.addTask 10 7 5, Op.update]).1.task_list
        ⟨0, by decide⟩).counter = 99 ∧
    1 ≤ ((runOps (TaskScheduler_Init zeroState 1000)
        [Op.addTask 10 7 5, Op.update]).1.task_list ⟨0, by decide⟩).interval_ticks ∧
    1 ≤ ((runOps (TaskScheduler_Init zeroState 1000)
        [Op.addTask 10 7 5, Op.update]).1.task_list ⟨0, by decide⟩).counter ∧
    ((runOps (TaskScheduler_Init zeroState 1000)
        [Op.addTask 10 7 5, Op.update]).1.task_list ⟨0, by decide⟩).counter
      ≤ ((runOps (TaskScheduler_Init zeroState 1000)
        [Op.addTask 10 7 5, Op.update]).1.task_list ⟨0, by decide⟩).interval_ticks ∧
    decr32 ((runOps (TaskScheduler_Init zeroState 1000)
        [Op.addTask 10 7 5, Op.update]).1.task_list ⟨0, by decide⟩).counter + 1
      = ((runOps (TaskScheduler_Init zeroState 1000)
        [Op.addTask 10 7 5, Op.update]).1.task_list ⟨0, by decide⟩).counter :=
  ⟨by decide,
   C10_counter_invariant zeroState 1000 (by decide) [Op.addTask 10 7 5, Op.update]
     ⟨0, by decide⟩ (by decide)⟩

/-- C11 (re-initialisation hides all prior state). For any two states `s1`
and `s2` and any `T`, `TaskScheduler_Init(T)` followed by the same sequence of
`TaskScheduler_AddTask` and `TaskScheduler_Update` calls yields the same
observations from both: the same return value of every registration and, for
every update, the same sequence of dispatched slots with the same functions
called. -/
theorem C11_reinit_hides_prior_state (s1 s2 : Scheduler) (T : Nat) (ops : List Op) :
    (runOps (TaskScheduler_Init s1 T) ops).2 = (runOps (TaskScheduler_Init s2 T) ops).2 :=
  runOps_sameLive ops _ _ (init_sameLive s1 s2 T)

/-- C12 (counter transition of one update). In a state whose counters are
`uint32_t` values and in which every active slot has `counter ≥ 1`, after one
`TaskScheduler_Update` every active slot whose counter was `1` has its counter
equal to `interval_ticks`, and every active slot whose counter was `c > 1` has
counter `c - 1`. -/
theorem C12_update_counter_transition (s : Scheduler)
    (hpos : ∀ k : Fin TASKSCHEDULER_MAX_TASKS,
      (s.task_list k).active ≠ 0 → 1 ≤ (s.task_list k).counter)
    (hrange : ∀ k : Fin TASKSCHEDULER_MAX_TASKS, (s.task_list k).counter < UINT32_MOD) :
    ∀ k : Fin TASKSCHEDULER_MAX_TASKS, (s.task_list k).active ≠ 0 →
      ((s.task_list k).counter = 1 →
        ((TaskScheduler_Update s).1.task_list k).counter = (s.task_list k).interval_ticks) ∧
      (1 < (s.task_list k).counter →
        ((TaskScheduler_Update s).1.task_list k).counter = (s.task_list k).counter - 1) := by
  intro k hact
  have hact' : (s.task_list.rd k.val).active ≠ 0 := by
    rw [rd_val]
    exact hact
  refine ⟨?_, ?_⟩
  · intro hc
    have hc' : (s.task_list.rd k.val).counter = 1 := by
      rw [rd_val]
      exact hc
    have h := (update_slot_fire s k.val k.isLt hact' hc').2
    rw [rd_val, rd_val] at h
    rw [h]
  · intro hc
    have hc1 : 1 < (s.task_list.rd k.val).counter := by
      rw [rd_val]
      exact hc
    have hc2 : (s.task_list.rd k.val).counter < UINT32_MOD := by
      rw [rd_val]
      exact hrange k
    have h := (update_slot_wait s k.val k.isLt hact' hc1 hc2).2
    rw [rd_val, rd_val] at h
    rw [h]

/-- Witness for C12: after `Init(1000)` and `AddTask(10, 7, 5)` slot 0 has
counter 100; one `TaskScheduler_Update` later it has counter 99. -/
theorem C12_update_counter_transition_witness :
    ((TaskScheduler_Update
        (registerAll (TaskScheduler_Init zeroState 1000) [(10, 7, 5)])).1.task_list
        ⟨0, by decide⟩).counter = 99 :=
  ((C12_update_counter_transition
      (registerAll (TaskScheduler_Init zeroState 1000) [(10, 7, 5)])
      (by decide) (by decide) ⟨0, by decide⟩ (by decide)).2 (by decide)).trans (by decide)

/-- C13 (frame of an update). `TaskScheduler_Update` leaves the tick rate
unchanged, leaves every field of every inactive slot unchanged, and leaves the
`active`, `interval_ticks`, `priority` and `callback` fields of every slot
unchanged: only counters of active slots can change. -/
theorem C13_update_frame (s : Scheduler) :
    (TaskScheduler_Update s).1.tick_per_second = s.tick_per_second ∧
    (∀ k : Fin TASKSCHEDULER_MAX_TASKS, (s.task_list k).active = 0 →
      (TaskScheduler_Update s).1.task_list k = s.task_list k) ∧
    (∀ k : Fin TASKSCHEDULER_MAX_TASKS,
      ((TaskScheduler_Update s).1.task_list k).active = (s.task_list k).active ∧
      ((TaskScheduler_Update s).1.task_list k).interval_ticks
        = (s.task_list k).interval_ticks ∧
      ((TaskScheduler_Update s).1.task_list k).priority = (s.task_list k).priority ∧
      ((TaskScheduler_Update s).1.task_list k).callback = (s.task_list k).callback) := by
  refine ⟨update_tick s, ?_, ?_⟩
  · intro k hk
    have hk' : (s.task_list.rd k.val).active = 0 := by
      rw [rd_val]
      exact hk
    have h := (update_slot_inactive s k.val k.isLt hk').2
    rwa [rd_val, rd_val] at h
  · intro k
    obtain ⟨h1, h2, h3, h4⟩ := update_fields s k.val k.isLt
    rw [rd_val, rd_val] at h1 h2 h3 h4
    exact ⟨h1, h4, h3, h2⟩

/-- C14 (frame of a registration). A `TaskScheduler_AddTask` call that
returns the index `i` took a slot `i < 10` that was inactive, leaves the tick
rate unchanged and leaves every slot other than `i` unchanged; in particular
every slot that was active before the call is unchanged. -/
theorem C14_registration_frame (s : Scheduler) (f cb p i : Nat)
    (hret : (TaskScheduler_AddTask s f cb p).2 = (i : Int)) :
    i < TASKSCHEDULER_MAX_TASKS ∧ (s.task_list.rd i).active = 0 ∧
    (TaskScheduler_AddTask s f cb p).1.tick_per_second = s.tick_per_second ∧
    (∀ j : Fin TASKSCHEDULER_MAX_TASKS, j.val ≠ i →
      (TaskScheduler_AddTask s f cb p).1.task_list j = s.task_list j) ∧
    (∀ j : Fin TASKSCHEDULER_MAX_TASKS, (s.task_list j).active ≠ 0 →
      (TaskScheduler_AddTask s f cb p).1.task_list j = s.task_list j) := by
  obtain ⟨hi, _, hfree, _, hres⟩ := addTask_success s f cb p i hret
  have hother : ∀ j : Fin TASKSCHEDULER_MAX_TASKS, j.val ≠ i →
      (TaskScheduler_AddTask s f cb p).1.task_list j = s.task_list j := by
    intro j hj
    have h := rd_wr_ne s.task_list hj (newTask (intervalTicks s.tick_per_second f) cb p)
    rw [rd_val, rd_val] at h
    rw [hres]
    exact h
  refine ⟨hi, hfree, addTask_tick s f cb p, hother, ?_⟩
  intro j hact
  apply hother j
  intro hji
  rw [← hji, rd_val] at hfree
  exact hact hfree

/-- Witness for C14: with slot 0 taken, a second registration returns 1 and
leaves slot 0 as it was. -/
theorem C14_registration_frame_witness :
    (TaskScheduler_AddTask
        (registerAll (TaskScheduler_Init zeroState 1000) [(10, 7, 5)]) 4 9 2).1.task_list
        ⟨0, by decide⟩
      = (registerAll (TaskScheduler_Init zeroState 1000) [(10, 7, 5)]).task_list
        ⟨0, by decide⟩ :=
  (C14_registration_frame
    (registerAll (TaskScheduler_Init zeroState 1000) [(10, 7, 5)]) 4 9 2 1
    (by decide)).2.2.2.1 ⟨0, by decide⟩ (by decide)

/-- C15 (bounded ready set). In every call of `TaskScheduler_Update` the
number of ready slots collected is at most `TASKSCHEDULER_MAX_TASKS = 10` and
every ready index stored, before and after the sort, lies in `0..9`; and
running the call with every read and write of `ready_task_indices` and of
`task_list` in the readiness, sorting and dispatch loops checked against the
array bounds never reports an access out of bounds and gives the result of the
unchecked call. -/
theorem C15_bounded_ready_set (s : Scheduler) :
    (readyPass s.task_list).2.length ≤ TASKSCHEDULER_MAX_TASKS ∧
    (∀ x ∈ (readyPass s.task_list).2, x < TASKSCHEDULER_MAX_TASKS) ∧
    (sortReady (readyPass s.task_list).1 (readyPass s.task_list).2).length
      = (readyPass s.task_list).2.length ∧
    (∀ x ∈ sortReady (readyPass s.task_list).1 (readyPass s.task_list).2,
      x < TASKSCHEDULER_MAX_TASKS) ∧
    TaskScheduler_Update_checked s = some (TaskScheduler_Update s) := by
  obtain ⟨h1, h2⟩ := readyPass_bounds s.task_list
  have h3 := sortReady_length (readyPass s.task_list).1 (readyPass s.task_list).2
  have h4 : ∀ x ∈ sortReady (readyPass s.task_list).1 (readyPass s.task_list).2,
      x < TASKSCHEDULER_MAX_TASKS := by
    intro x hx
    exact h2 x ((sortReady_perm _ _).mem_iff.mp hx)
  refine ⟨h1, h2, h3, h4, ?_⟩
  unfold TaskScheduler_Update_checked
  rw [readyPassChecked_eq]
  simp only
  rw [sortReadyChecked_eq _ _ h1 h2]
  simp only
  rw [dispatchPassChecked_eq _ _ (by rw [h3]; exact h1) h4]
  simp only [TaskScheduler_Update]

/-- C16 (the active slots form a prefix). In every state reached from
`TaskScheduler_Init(T)` by any sequence of `TaskScheduler_AddTask` and
`TaskScheduler_Update` calls, with `n` the number of registrations that
succeeded since the `Init`, the active slots are exactly the indices below
`n`, `n` is at most 10, and the values returned by the successful
registrations are `0, 1, ..., n - 1` in this order: the `k`-th successful
registration returned `k - 1`. -/
theorem C16_active_slots_form_prefix (s0 : Scheduler) (T : Nat) (ops : List Op) :
    (∀ k : Fin TASKSCHEDULER_MAX_TASKS,
      ((runOps (TaskScheduler_Init s0 T) ops).1.task_list k).active ≠ 0 ↔
        k.val < (successesOf (runOps (TaskScheduler_Init s0 T) ops).2).length) ∧
    successesOf (runOps (TaskScheduler_Init s0 T) ops).2
      = List.map Int.ofNat
          (List.range (successesOf (runOps (TaskScheduler_Init s0 T) ops).2).length) ∧
    (successesOf (runOps (TaskScheduler_Init s0 T) ops).2).length
      ≤ TASKSCHEDULER_MAX_TASKS := by
  obtain ⟨h1, h2, h3⟩ := runOps_activeUpTo ops (TaskScheduler_Init s0 T) 0
    (init_activeUpTo s0 T) (Nat.zero_le _)
  rw [Nat.zero_add] at h1 h3
  refine ⟨?_, ?_, h3⟩
  · intro k
    have := h1 k.val k.isLt
    rwa [rd_val] at this
  · rw [List.range_eq_range']
    exact h2

/-- C17 (the floor-of-1 clamp is unreachable). For every tick rate `T` and
every `f` with `f ≠ 0` and `f ≤ T`, the quotient `T / f` is at least `1`, so
the branch replacing an interval of `0` by `1` does not fire: the interval
computed, and stored by every successful `TaskScheduler_AddTask` at tick rate
`T`, is exactly `T / f`; it satisfies `interval_ticks * f ≤ T`, and it is `1`
whenever `T / 2 < f`. -/
theorem C17_clamp_unreachable (T f : Nat) (hf : f ≠ 0) (hfT : f ≤ T) :
    1 ≤ T / f ∧ intervalTicks T f = T / f ∧ intervalTicks T f * f ≤ T ∧
    (T / 2 < f → intervalTicks T f = 1) ∧
    (∀ (s : Scheduler) (cb p k : Nat), s.tick_per_second = T →
      (TaskScheduler_AddTask s f cb p).2 = (k : Int) →
      ((TaskScheduler_AddTask s f cb p).1.task_list.rd k).interval_ticks = T / f) := by
  have hfpos : 0 < f := Nat.pos_of_ne_zero hf
  have h1 : 1 ≤ T / f := (Nat.one_le_div_iff hfpos).mpr hfT
  have h2 : intervalTicks T f = T / f := by
    rw [intervalTicks_eq_max]
    exact Nat.max_eq_right h1
  refine ⟨h1, h2, ?_, ?_, ?_⟩
  · rw [h2]
    exact Nat.div_mul_le_self T f
  · intro hhalf
    rw [h2]
    have hlt : T / f < 2 := by
      rw [Nat.div_lt_iff_lt_mul hfpos]
      omega
    omega
  · intro s cb p k hT hret
    obtain ⟨hk, _, _, _, hres⟩ := addTask_success s f cb p k hret
    rw [hres]
    simp only
    rw [rd_wr_same _ hk, hT, h2]
    rfl

/-- Witness for C17: at tick rate 1000, frequency 600 gives interval
`1000 / 600 = 1` without the clamp. -/
theorem C17_clamp_unreachable_witness :
    1 ≤ 1000 / 600 ∧ intervalTicks 1000 600 = 1000 / 600 ∧
    intervalTicks 1000 600 * 600 ≤ 1000 ∧
    (1000 / 2 < 600 → intervalTicks 1000 600 = 1) ∧
    (∀ (s : Scheduler) (cb p k : Nat), s.tick_per_second = 1000 →
      (TaskScheduler_AddTask s 600 cb p).2 = (k : Int) →
      ((TaskScheduler_AddTask s 600 cb p).1.task_list.rd k).interval_ticks = 1000 / 600) :=
  C17_clamp_unreachable 1000 600 (by decide) (by decide)

/-- C18 (a zero tick rate rejects everything). After `TaskScheduler_Init(0)`,
and likewise in the zero-initialised state before any `Init`, in every run of
calls each `TaskScheduler_AddTask` returns `-1`, whatever its arguments, and
each `TaskScheduler_Update` calls nothing. -/
theorem C18_zero_tick_rate (s0 : Scheduler) (ops : List Op) :
    ((∀ r ∈ retsOf (runOps (TaskScheduler_Init s0 0) ops).2, r = -1) ∧
      (∀ l, Out.calls l ∈ (runOps (TaskScheduler_Init s0 0) ops).2 → l = [])) ∧
    ((∀ r ∈ retsOf (runOps zeroState ops).2, r = -1) ∧
      (∀ l, Out.calls l ∈ (runOps zeroState ops).2 → l = [])) ∧
    (∀ f cb p, (TaskScheduler_AddTask (TaskScheduler_Init s0 0) f cb p).2 = -1) ∧
    (∀ f cb p, (TaskScheduler_AddTask zeroState f cb p).2 = -1) := by
  refine ⟨(runOps_zero_tick ops _ rfl (init_all_inactive s0 0)).2,
    (runOps_zero_tick ops _ rfl zeroState_inactive).2, ?_, ?_⟩
  · intro f cb p
    have hrej : rejected (TaskScheduler_Init s0 0) f cb := by
      unfold rejected
      rw [init_tick]
      omega
    rw [addTask_rejected _ f cb p hrej]
  · intro f cb p
    have hrej : rejected zeroState f cb := by
      unfold rejected
      have : zeroState.tick_per_second = 0 := rfl
      rw [this]
      omega
    rw [addTask_rejected _ f cb p hrej]

end TaskScheduler
